import Mathlib

/-!
Secrets service: authentication, token gate, secret lookup and chat proxy.

A shallow embedding of `backend/main.go` and `backend/internal/chat.go`.

* Handlers are functions from what they read (configuration, clock, decoded
  request) to what they write (status, content type, body) together with a
  trace of the outward calls they make (token signing, `next.ServeHTTP`,
  `client.Do`).  Logging is not part of the embedding.
* Instants are Unix nanoseconds and durations are nanoseconds, as in Go's
  `time` package.
* The libraries the handlers call are modelled by their documented behaviour:
  `net/http` (`http.Error`, status constants), `encoding/json` (`omitempty`,
  decoding into `map[string]interface{}`), `github.com/golang-jwt/jwt/v5`
  (compact serialisation, HMAC signing methods, the default claims validator)
  and `crypto/hmac` (RFC 2104).  The byte-level encodings (base64url of JSON)
  and the hash functions stay abstract: they are the fields of `jwt.Wire` and
  `jwt.Hashes`, constrained by `jwt.Wire.Lawful`.
-/

namespace Blog

/-! ## Go strings and byte slices -/

/-- Go `strings.HasPrefix`. -/
def HasPrefix (s p : String) : Bool := p.data.isPrefixOf s.data

/-- Go `strings.TrimPrefix`: `s` without the leading `p`, or `s` itself when
`s` does not start with `p`. -/
def TrimPrefix (s p : String) : String :=
  if HasPrefix s p then String.mk (s.data.drop p.data.length) else s

/-- Go conversion `[]byte(s)`: the UTF-8 bytes of a string. -/
def bytes (s : String) : List UInt8 := (s.data.map String.utf8EncodeChar).flatten

/-! ## Time -/

/-- An instant (`time.Time`), as nanoseconds since the Unix epoch. -/
abbrev Time := Nat

namespace time

/-- Go `time.Second`, in nanoseconds. -/
def Second : Nat := 1000000000

/-- Go `time.Hour`, in nanoseconds. -/
def Hour : Nat := 3600 * Second

end time

/-! ## JSON values -/

/-- A JSON value as `encoding/json` reads or writes it. -/
inductive JSON where
  | null
  | bool (b : Bool)
  | num (literal : String)
  | str (s : String)
  | arr (items : List JSON)
  | obj (members : List (String × JSON))

/-- Indexing the Go map that an object decodes to: members are stored in
order, so a later duplicate of a key replaces an earlier one. -/
def mapIndex : List (String × JSON) → String → Option JSON
  | [], _ => none
  | (k, v) :: rest, key =>
    match mapIndex rest key with
    | some w => some w
    | none => if k = key then some v else none

/-- Decoding a JSON value into a `map[string]interface{}` variable: an object
gives its members, `null` leaves the map nil, every other value is a type
error.  The argument is `none` when the body holds no JSON value. -/
def decodeMap : Option JSON → Except String (List (String × JSON))
  | some (.obj members) => .ok members
  | some .null => .ok []
  | some _ => .error "json: cannot unmarshal into Go value of type map[string]interface {}"
  | none => .error "invalid character"

/-- A string field tagged `omitempty`: left out when empty. -/
def omitempty (key value : String) : List (String × JSON) :=
  if value = "" then [] else [(key, .str value)]

/-! ## net/http -/

namespace http

def StatusOK : Nat := 200
def StatusBadRequest : Nat := 400
def StatusUnauthorized : Nat := 401
def StatusForbidden : Nat := 403
def StatusInternalServerError : Nat := 500
def StatusBadGateway : Nat := 502

end http

/-- What a handler writes: either an encoded JSON value or plain text. -/
inductive Body where
  | json (v : JSON)
  | text (s : String)

/-- A written response: status line, `Content-Type` header and body. -/
structure Response where
  StatusCode : Nat
  ContentType : String
  Body : Body

namespace http

/-- Go `http.Error`: a plain-text reply with the given status. -/
def Error (error : String) (code : Nat) : Response :=
  { StatusCode := code, ContentType := "text/plain; charset=utf-8", Body := .text (error ++ "\n") }

end http

/-- The sequence `w.Header().Set("Content-Type", "application/json")`,
`w.WriteHeader(code)`, `json.NewEncoder(w).Encode(v)`. -/
def writeJSON (code : Nat) (v : JSON) : Response :=
  { StatusCode := code, ContentType := "application/json", Body := .json v }

/-! ## Data model of `main.go` -/

/-- Config holds all configuration. -/
structure Config where
  JWTSecret : String := ""
  Port : String := ""
  AllowedOrigins : String := ""
  AuthUsername : String := ""
  AuthPassword : String := ""
  OpenAIKey : String := ""
  FirebaseKey : String := ""

/-- The function `getEnv` of `main.go`; `environ` is `os.Getenv`, which gives
the empty string for a variable that is not set. -/
def getEnv (environ : String → String) (key defaultValue : String) : String :=
  if environ key ≠ "" then environ key else defaultValue

/-- The configuration `main` builds from the process environment. -/
def mainConfig (environ : String → String) : Config :=
  { JWTSecret := getEnv environ "JWT_SECRET" "your-jwt-secret-change-this",
    Port := getEnv environ "PORT" "8080",
    AllowedOrigins := getEnv environ "ALLOWED_ORIGINS" "https://ethanmerrill.com",
    AuthUsername := getEnv environ "VITE_SECRETS_SERVICE_USERNAME" "admin",
    AuthPassword := getEnv environ "VITE_SECRETS_SERVICE_PASSWORD" "changeme",
    OpenAIKey := getEnv environ "OPENAI_API_KEY" "",
    FirebaseKey := getEnv environ "FIREBASE_API_KEY" "" }

/-- The error message a response carries in a JSON object body, if any. -/
def errorMessage (r : Response) : Option String :=
  match r.Body with
  | .json (.obj members) =>
    match mapIndex members "error" with
    | some (.str message) => some message
    | _ => none
  | _ => none

/-- Whether a response has the JSON error envelope: content type
`application/json` and a JSON object body with a non-empty error message. -/
def isErrorEnvelope (r : Response) : Bool :=
  r.ContentType == "application/json" &&
    (match errorMessage r with
     | some message => message != ""
     | none => false)

/-- SecretService handles secret operations. -/
structure SecretService where
  config : Config

/-- AuthRequest for login. -/
structure AuthRequest where
  Username : String := ""
  Password : String := ""

/-- AuthResponse for login. -/
structure AuthResponse where
  Token : String := ""
  Error : String := ""

/-- SecretResponse for secret endpoints. -/
structure SecretResponse where
  Secret : String := ""
  Error : String := ""

/-- The JSON encoding of an `AuthResponse`: `token` always, `error` when non-empty. -/
def AuthResponse.toJSON (r : AuthResponse) : JSON :=
  .obj (("token", .str r.Token) :: omitempty "error" r.Error)

/-- The JSON encoding of a `SecretResponse`: `secret` always, `error` when non-empty. -/
def SecretResponse.toJSON (r : SecretResponse) : JSON :=
  .obj (("secret", .str r.Secret) :: omitempty "error" r.Error)

/-! ## github.com/golang-jwt/jwt/v5 -/

namespace jwt

/-- A `jwt.NumericDate` at the default `jwt.TimePrecision` of one second:
whole seconds since the Unix epoch. This is the date the library holds, exact
for the dates it writes itself. A date read from a token goes through
`float64` into `int64` and is truncated to the second, so a received date
that is fractional, negative or not below 2^53 is not held as the number the
token shows: see `jwt.RegisteredClaims.exact`. -/
structure NumericDate where
  Unix : Nat
deriving DecidableEq

/-- The instant a numeric date stands for. -/
def NumericDate.Time (d : NumericDate) : Time := d.Unix * time.Second

/-- Go `jwt.NewNumericDate`: truncates the instant to `jwt.TimePrecision`. -/
def NewNumericDate (t : Time) : NumericDate := { Unix := t / time.Second }

/-- The time-valued fields of `jwt.RegisteredClaims`. -/
structure RegisteredClaims where
  ExpiresAt : Option NumericDate := none
  NotBefore : Option NumericDate := none
  IssuedAt : Option NumericDate := none
deriving DecidableEq

end jwt

/-- Claims for JWT. -/
structure Claims extends jwt.RegisteredClaims where
  Username : String := ""
deriving DecidableEq

namespace jwt

/-- The HMAC signing methods: the only registered methods that take a
`[]byte` key. -/
inductive SigningMethodHMAC where
  | HS256
  | HS384
  | HS512
deriving DecidableEq

/-- The `alg` header value of a method. -/
def SigningMethodHMAC.Alg : SigningMethodHMAC → String
  | .HS256 => "HS256"
  | .HS384 => "HS384"
  | .HS512 => "HS512"

/-- The method a token header's `alg` selects, when it is one that can verify
under a `[]byte` key.  The other registered methods (`none`, RSA, ECDSA,
EdDSA) refuse such a key and unregistered names are unverifiable. -/
def hmacMethod (alg : String) : Option SigningMethodHMAC :=
  if alg = "HS256" then some .HS256
  else if alg = "HS384" then some .HS384
  else if alg = "HS512" then some .HS512
  else none

/-- The hash functions behind the HMAC methods (SHA-256, SHA-384, SHA-512),
kept abstract, with `crypto.Hash.Available`. -/
structure Hashes where
  Sum : SigningMethodHMAC → List UInt8 → List UInt8
  Available : SigningMethodHMAC → Bool

/-- Block size in bytes of the hash of a method. -/
def BlockSize : SigningMethodHMAC → Nat
  | .HS256 => 64
  | .HS384 => 128
  | .HS512 => 128

/-- The key block of `crypto/hmac`: a key longer than the block is hashed,
then the key is padded with zero bytes to the block size. -/
def keyBlock (h : Hashes) (m : SigningMethodHMAC) (key : List UInt8) : List UInt8 :=
  let k := if key.length > BlockSize m then h.Sum m key else key
  k ++ List.replicate (BlockSize m - k.length) 0

/-- The HMAC (RFC 2104) of a message under a key. -/
def hmacSum (h : Hashes) (m : SigningMethodHMAC) (key msg : List UInt8) : List UInt8 :=
  let k := keyBlock h m key
  h.Sum m (k.map (fun b => b ^^^ 0x5c) ++ h.Sum m (k.map (fun b => b ^^^ 0x36) ++ msg))

/-- The segment encodings of the compact serialisation (base64url of the JSON
header, base64url of the JSON claims, base64url of the signature), kept
abstract. -/
structure Wire where
  EncodeHeader : String → List Char
  DecodeHeader : List Char → Option String
  EncodeClaims : Claims → List Char
  DecodeClaims : List Char → Option Claims
  EncodeSegment : List UInt8 → List Char
  DecodeSegment : List Char → Option (List UInt8)

/-- What the abstract encodings are assumed to satisfy: decoding inverts
encoding, an encoded segment contains no dot, and an encoded header is
non-empty and contains no blank (the base64url alphabet has neither). -/
structure Wire.Lawful (W : Wire) : Prop where
  header : ∀ alg, W.DecodeHeader (W.EncodeHeader alg) = some alg
  claims : ∀ c, W.DecodeClaims (W.EncodeClaims c) = some c
  segment : ∀ sig, W.DecodeSegment (W.EncodeSegment sig) = some sig
  header_dot : ∀ alg, '.' ∉ W.EncodeHeader alg
  claims_dot : ∀ c, '.' ∉ W.EncodeClaims c
  segment_dot : ∀ sig, '.' ∉ W.EncodeSegment sig
  header_blank : ∀ alg, ' ' ∉ W.EncodeHeader alg
  header_ne : ∀ alg, W.EncodeHeader alg ≠ []

/-- The errors `ParseWithClaims` and `SignedString` return. -/
inductive Err where
  | ErrTokenMalformed
  | ErrTokenUnverifiable
  | ErrTokenSignatureInvalid
  | ErrTokenExpired
  | ErrTokenNotValidYet
  | ErrHashUnavailable
deriving DecidableEq

/-- A parsed token. -/
structure Token where
  Method : SigningMethodHMAC
  Claims : Claims
  Valid : Bool

/-- Go `Token.SigningString`: encoded header, a dot, encoded claims. -/
def SigningString (W : Wire) (m : SigningMethodHMAC) (c : Claims) : List Char :=
  W.EncodeHeader m.Alg ++ '.' :: W.EncodeClaims c

/-- Go `SigningMethodHMAC.Sign` with a `[]byte` key. -/
def Sign (h : Hashes) (m : SigningMethodHMAC) (signingString : List Char) (key : List UInt8) :
    Except Err (List UInt8) :=
  if h.Available m then .ok (hmacSum h m key (bytes (String.mk signingString)))
  else .error .ErrHashUnavailable

/-- Go `Token.SignedString`: the signing string, a dot, the encoded signature. -/
def SignedString (W : Wire) (h : Hashes) (m : SigningMethodHMAC) (c : Claims) (key : List UInt8) :
    Except Err String :=
  match Sign h m (SigningString W m c) key with
  | .error e => .error e
  | .ok sig => .ok (String.mk (SigningString W m c ++ '.' :: W.EncodeSegment sig))

/-- Go `SigningMethodHMAC.Verify` with a `[]byte` key: recompute and compare. -/
def Verify (h : Hashes) (m : SigningMethodHMAC) (signingString : List Char) (sig key : List UInt8) :
    Option Err :=
  if h.Available m then
    if sig = hmacSum h m key (bytes (String.mk signingString)) then none
    else some .ErrTokenSignatureInvalid
  else some .ErrHashUnavailable

/-- Go `Validator.verifyExpiresAt` with `required = false` and no leeway: an
absent `exp` passes, a present one must be strictly after now. -/
def verifyExpiresAt (now : Time) (c : RegisteredClaims) : Option Err :=
  match c.ExpiresAt with
  | none => none
  | some exp => if now < exp.Time then none else some .ErrTokenExpired

/-- Go `Validator.verifyNotBefore` with `required = false` and no leeway: an
absent `nbf` passes, a present one must not be after now. -/
def verifyNotBefore (now : Time) (c : RegisteredClaims) : Option Err :=
  match c.NotBefore with
  | none => none
  | some nbf => if now < nbf.Time then some .ErrTokenNotValidYet else none

/-- The default `Validator.Validate` (no parser options): checks `exp`, then
`nbf`; `iat`, issuer, subject and audience are not checked. -/
def Validate (now : Time) (c : RegisteredClaims) : Option Err :=
  match verifyExpiresAt now c with
  | some e => some e
  | none => verifyNotBefore now c

/-- Go `Parser.ParseUnverified`: split the string into three segments at the
dots, decode header and claims, look the signing method up.  Returns the
token, not yet valid, and the three segments. -/
def ParseUnverified (W : Wire) (tokenString : String) :
    Except Err (Token × List Char × List Char × List Char) :=
  match tokenString.data.splitOn '.' with
  | [p0, p1, p2] =>
    match W.DecodeHeader p0 with
    | none => .error .ErrTokenMalformed
    | some alg =>
      match W.DecodeClaims p1 with
      | none => .error .ErrTokenMalformed
      | some claims =>
        match hmacMethod alg with
        | none => .error .ErrTokenUnverifiable
        | some m => .ok ({ Method := m, Claims := claims, Valid := false }, p0, p1, p2)
  | _ => .error .ErrTokenMalformed

/-- Go `jwt.ParseWithClaims` with a key function that returns the same
`[]byte` key for every token and no parser options: parse, decode the
signature, verify it over the first two segments, validate the claims. -/
def ParseWithClaims (W : Wire) (h : Hashes) (now : Time) (tokenString : String)
    (key : List UInt8) : Except Err Token :=
  match ParseUnverified W tokenString with
  | .error e => .error e
  | .ok (token, p0, p1, p2) =>
    match W.DecodeSegment p2 with
    | none => .error .ErrTokenMalformed
    | some sig =>
      match Verify h token.Method (p0 ++ '.' :: p1) sig key with
      | some _ => .error .ErrTokenSignatureInvalid
      | none =>
        match Validate now token.Claims.toRegisteredClaims with
        | some e => .error e
        | none => .ok { token with Valid := true }

end jwt

namespace jwt

/-- Whether the signature of a token string verifies under a key: the string
parses, its third segment decodes and `Verify` accepts it over the first two. -/
def signatureVerifies (W : Wire) (h : Hashes) (tokenString : String) (key : List UInt8) : Bool :=
  match ParseUnverified W tokenString with
  | .error _ => false
  | .ok (token, p0, p1, p2) =>
    match W.DecodeSegment p2 with
    | none => false
    | some sig => (Verify h token.Method (p0 ++ '.' :: p1) sig key).isNone

/-- Whether an optional date is one the JSON decoding of the library
reproduces exactly: absent, or whole seconds below 2^53. -/
def representable : Option NumericDate → Bool
  | none => true
  | some d => decide (d.Unix < 9007199254740992)

/-- Whether all dates of the claims are reproduced exactly by decoding. -/
def RegisteredClaims.exact (c : RegisteredClaims) : Bool :=
  representable c.ExpiresAt && representable c.NotBefore && representable c.IssuedAt

/-- The expiration timestamp a token string carries, if any. -/
def expirationOf (W : Wire) (tokenString : String) : Option NumericDate :=
  match ParseUnverified W tokenString with
  | .error _ => none
  | .ok (token, _, _, _) => token.Claims.ExpiresAt

/-- The not-before timestamp a token string carries, if any. -/
def notBeforeOf (W : Wire) (tokenString : String) : Option NumericDate :=
  match ParseUnverified W tokenString with
  | .error _ => none
  | .ok (token, _, _, _) => token.Claims.NotBefore

end jwt

/-! ## Handlers of `main.go` -/

/-- The part of an incoming request the token gate reads and hands on. -/
structure Request where
  Method : String := ""
  Path : String := ""
  /-- The value of `r.Header.Get("Authorization")`: empty when the header is absent. -/
  Authorization : String := ""

/-- What `authHandler` does: the response it writes and the claims it hands
to `SignedString`, in order. -/
structure AuthResult where
  Response : Response
  Signed : List Claims

/-- The handler `SecretService.authHandler`.  `body` is the result of decoding
the request body into an `AuthRequest`: `none` when `Decode` returns an error. -/
def SecretService.authHandler (W : jwt.Wire) (h : jwt.Hashes) (s : SecretService) (now : Time)
    (body : Option AuthRequest) : AuthResult :=
  match body with
  | none => { Response := http.Error "Invalid request body" http.StatusBadRequest, Signed := [] }
  | some req =>
    -- Use config values for authentication
    if req.Username ≠ s.config.AuthUsername ∨ req.Password ≠ s.config.AuthPassword then
      { Response := writeJSON http.StatusUnauthorized
          (AuthResponse.toJSON { Error := "Invalid credentials" }),
        Signed := [] }
    else
      -- Create JWT token
      let expirationTime := now + 24 * time.Hour
      let claims : Claims :=
        { Username := req.Username, ExpiresAt := some (jwt.NewNumericDate expirationTime) }
      match jwt.SignedString W h .HS256 claims (bytes s.config.JWTSecret) with
      | .error _ =>
        { Response := writeJSON http.StatusInternalServerError
            (AuthResponse.toJSON { Error := "Failed to generate token" }),
          Signed := [claims] }
      | .ok tokenString =>
        { Response := writeJSON http.StatusOK (AuthResponse.toJSON { Token := tokenString }),
          Signed := [claims] }

/-- What the token gate does with a request: the response it writes itself,
if any, and the requests it passes to `next.ServeHTTP`, in order. -/
structure GateResult where
  Written : Option Response
  Next : List Request

/-- The 401 outcome of the gate with a given message. -/
def unauthorized (message : String) : GateResult :=
  { Written := some (http.Error message http.StatusUnauthorized), Next := [] }

/-- The middleware `SecretService.jwtMiddleware`, at clock reading `now`. -/
def SecretService.jwtMiddleware (W : jwt.Wire) (h : jwt.Hashes) (s : SecretService) (now : Time)
    (r : Request) : GateResult :=
  let authHeader := r.Authorization
  if authHeader = "" then
    { Written := some (http.Error "Authorization header required" http.StatusUnauthorized),
      Next := [] }
  else
    let tokenString := TrimPrefix authHeader "Bearer "
    if tokenString = authHeader then
      { Written := some (http.Error "Bearer token required" http.StatusUnauthorized), Next := [] }
    else
      match jwt.ParseWithClaims W h now tokenString (bytes s.config.JWTSecret) with
      | .error _ =>
        { Written := some (http.Error "Invalid token" http.StatusUnauthorized), Next := [] }
      | .ok token =>
        if !token.Valid then
          { Written := some (http.Error "Invalid token" http.StatusUnauthorized), Next := [] }
        else
          { Written := none, Next := [r] }

/-- The handler `SecretService.getOpenAIKeyHandler`. -/
def SecretService.getOpenAIKeyHandler (s : SecretService) : Response :=
  if s.config.OpenAIKey = "" then
    writeJSON http.StatusInternalServerError
      (SecretResponse.toJSON { Error := "Secret not configured" })
  else
    writeJSON http.StatusOK (SecretResponse.toJSON { Secret := s.config.OpenAIKey })

/-- The handler `SecretService.getSecretHandler`; `secretName` is the route
variable `mux.Vars(r)["secretName"]`. -/
def SecretService.getSecretHandler (s : SecretService) (secretName : String) : Response :=
  -- Security: Only allow specific secret names and map to config fields
  let found : Option (String × Bool) :=
    if secretName = "openai" then
      some (s.config.OpenAIKey, decide (s.config.OpenAIKey ≠ ""))
    else if secretName = "firebase" then
      some (s.config.FirebaseKey, decide (s.config.FirebaseKey ≠ ""))
    else none
  match found with
  | none =>
    writeJSON http.StatusForbidden (SecretResponse.toJSON { Error := "Secret not allowed" })
  | some (secret, ok) =>
    if !ok then
      writeJSON http.StatusInternalServerError
        (SecretResponse.toJSON { Error := "Secret not configured" })
    else
      writeJSON http.StatusOK (SecretResponse.toJSON { Secret := secret })

/-- The lookup of the secret store accessor as the specification words it:
an unknown name is forbidden, a known name with an empty configured value is
not configured, a known name with a value returns that value. -/
def secretLookupSpec (c : Config) (name : String) : Response :=
  if name ≠ "openai" ∧ name ≠ "firebase" then
    { StatusCode := 403, ContentType := "application/json",
      Body := .json (.obj [("secret", .str ""), ("error", .str "Secret not allowed")]) }
  else
    let value := if name = "openai" then c.OpenAIKey else c.FirebaseKey
    if value = "" then
      { StatusCode := 500, ContentType := "application/json",
        Body := .json (.obj [("secret", .str ""), ("error", .str "Secret not configured")]) }
    else
      { StatusCode := 200, ContentType := "application/json",
        Body := .json (.obj [("secret", .str value)]) }

/-! ## The chat proxy of `internal/chat.go` -/

namespace internal

structure ChatRequest where
  Message : String := ""

structure ChatResponse where
  Response : String := ""
  Error : String := ""

/-- The JSON encoding of a `ChatResponse`: both fields are `omitempty`. -/
def ChatResponse.toJSON (r : ChatResponse) : JSON :=
  .obj (omitempty "response" r.Response ++ omitempty "error" r.Error)

structure ChatConfig where
  OpenAIKey : String := ""

structure ChatService where
  Config : ChatConfig

def NewChatService (openAIKey : String) : ChatService :=
  { Config := { OpenAIKey := openAIKey } }

/-- An outbound `http.Request`: method, URL, body and the two headers the
handler sets. -/
structure OutboundRequest where
  Method : String
  URL : String
  Body : JSON
  ContentType : String := ""
  Authorization : String := ""

/-- The reply `client.Do` hands back: the status code and the JSON value its
body holds (`none` when the body is not JSON). -/
structure UpstreamResponse where
  StatusCode : Nat
  Body : Option JSON

/-- Why `client.Do` returns an error instead of a reply. -/
inductive TransportError where
  | timeout
  | other (reason : String)

/-- An `http.Client`. -/
structure Client where
  Timeout : Nat

/-- The network as the handler meets it: `client.Do`. -/
abbrev Transport := Client → OutboundRequest → Except TransportError UpstreamResponse

/-- Go `json.Marshal` of the request map: a map of strings and numbers always
marshals. -/
def Marshal (v : JSON) : Except String JSON := .ok v

/-- Go `http.NewRequest` for a fixed valid method and URL. -/
def NewRequest (method url : String) (body : JSON) : Except String OutboundRequest :=
  .ok { Method := method, URL := url, Body := body }

/-- What `ChatHandler` does: the response it writes and the requests it hands
to `client.Do`, in order. -/
structure ChatResult where
  Response : Response
  Outbound : List OutboundRequest

/-- The reply text `ChatHandler` takes from a decoded upstream body. -/
def aiResponse (openaiResult : List (String × JSON)) : String :=
  match mapIndex openaiResult "choices" with
  | some (.arr (first :: _)) =>
    match first with
    | .obj choice =>
      match mapIndex choice "message" with
      | some (.obj msg) =>
        match mapIndex msg "content" with
        | some (.str content) => content
        | _ => ""
      | _ => ""
    | _ => ""
  | _ => ""

/-- ChatHandler handles chat requests and proxies to OpenAI.  `body` is the
result of decoding the request body into a `ChatRequest` (`none` when `Decode`
returns an error), `Do` is the network and `WorkHistoryPrompt` the constant of
`work_history.go`. -/
def ChatService.ChatHandler (Do : Transport) (WorkHistoryPrompt : String) (s : ChatService)
    (body : Option ChatRequest) : ChatResult :=
  if s.Config.OpenAIKey = "" then
    { Response := writeJSON http.StatusInternalServerError
        (ChatResponse.toJSON { Error := "OpenAI API key not configured" }),
      Outbound := [] }
  else
    match body with
    | none =>
      { Response := writeJSON http.StatusBadRequest
          (ChatResponse.toJSON { Error := "Invalid request body" }),
        Outbound := [] }
    | some req =>
      -- Import work history context
      let importedPrompt := WorkHistoryPrompt ++ "\n\nYou are Ethan's AI assistant on his portfolio website. Be helpful, professional, and represent Ethan well. Keep responses concise and engaging. Reference the work history above if relevant."
      let openaiReq : JSON := .obj
        [ ("model", .str "gpt-3.5-turbo"),
          ("messages", .arr
            [ .obj [("role", .str "system"), ("content", .str importedPrompt)],
              .obj [("role", .str "user"), ("content", .str req.Message)] ]),
          ("max_tokens", .num "150"),
          ("temperature", .num "0.7") ]
      match Marshal openaiReq with
      | .error _ =>
        { Response := writeJSON http.StatusInternalServerError
            (ChatResponse.toJSON { Error := "Failed to prepare OpenAI request" }),
          Outbound := [] }
      | .ok openaiBody =>
        let client : Client := { Timeout := 30 * time.Second }
        match NewRequest "POST" "https://api.openai.com/v1/chat/completions" openaiBody with
        | .error _ =>
          { Response := writeJSON http.StatusInternalServerError
              (ChatResponse.toJSON { Error := "Failed to create OpenAI request" }),
            Outbound := [] }
        | .ok request =>
          let openaiRequest : OutboundRequest :=
            { request with ContentType := "application/json",
                           Authorization := "Bearer " ++ s.Config.OpenAIKey }
          match Do client openaiRequest with
          | .error _ =>
            { Response := writeJSON http.StatusInternalServerError
                (ChatResponse.toJSON { Error := "Failed to contact OpenAI API" }),
              Outbound := [openaiRequest] }
          | .ok openaiResp =>
            if openaiResp.StatusCode ≠ 200 then
              { Response := writeJSON http.StatusBadGateway
                  (ChatResponse.toJSON { Error := "OpenAI API error" }),
                Outbound := [openaiRequest] }
            else
              match decodeMap openaiResp.Body with
              | .error _ =>
                { Response := writeJSON http.StatusInternalServerError
                    (ChatResponse.toJSON { Error := "Failed to decode OpenAI response" }),
                  Outbound := [openaiRequest] }
              | .ok openaiResult =>
                if aiResponse openaiResult = "" then
                  { Response := writeJSON http.StatusInternalServerError
                      (ChatResponse.toJSON { Error := "No response from OpenAI" }),
                    Outbound := [openaiRequest] }
                else
                  { Response := writeJSON http.StatusOK
                      (ChatResponse.toJSON { Response := aiResponse openaiResult }),
                    Outbound := [openaiRequest] }

end internal

/-! ## A concrete instance of the abstract encodings

Laws stated over `jwt.Wire` and `jwt.Hashes` are instantiated here: a decimal
segment encoding that satisfies `jwt.Wire.Lawful`, a hash that returns its
input, and a network that always gives the same answer. -/

namespace jwt

/-- A number as the letter n followed by its decimal digits, lowest first. -/
def encNat (n : Nat) : List Char := 'n' :: (Nat.digits 10 n).map (fun d => Char.ofNat (48 + d))

/-- Inverse of `encNat`. -/
def decNat (cs : List Char) : Nat := Nat.ofDigits 10 (cs.tail.map (fun c => c.toNat - 48))

/-- A list of numbers: its length, then its elements, joined by underscores. -/
def encList (ns : List Nat) : List Char :=
  List.intercalate ['_'] (encNat ns.length :: ns.map encNat)

/-- Inverse of `encList`. -/
def decList (cs : List Char) : List Nat := ((cs.splitOn '_').map decNat).tail

/-- An optional date as a number: zero for absent. -/
def encDate : Option NumericDate → Nat
  | none => 0
  | some d => d.Unix + 1

/-- Inverse of `encDate`. -/
def decDate (k : Nat) : Option NumericDate := if k = 0 then none else some { Unix := k - 1 }

/-- Claims as a list of numbers: the three dates, then the user name. -/
def encClaims (c : Claims) : List Nat :=
  encDate c.ExpiresAt :: encDate c.NotBefore :: encDate c.IssuedAt :: c.Username.data.map Char.toNat

/-- Inverse of `encClaims`. -/
def decClaims : List Nat → Option Claims
  | e :: n :: i :: u =>
    some { ExpiresAt := decDate e, NotBefore := decDate n, IssuedAt := decDate i,
           Username := String.mk (u.map Char.ofNat) }
  | _ => none

/-- A segment encoding in decimal digits. -/
def decimalWire : Wire where
  EncodeHeader alg := encList (alg.data.map Char.toNat)
  DecodeHeader cs := some (String.mk ((decList cs).map Char.ofNat))
  EncodeClaims c := encList (encClaims c)
  DecodeClaims cs := decClaims (decList cs)
  EncodeSegment sig := encList (sig.map UInt8.toNat)
  DecodeSegment cs := some ((decList cs).map UInt8.ofNat)

/-- A stand-in hash that returns its input; every method is available. -/
def plainHashes : Hashes where
  Sum _ data := data
  Available _ := true

/-- The token the concrete signer issues for given claims under the key
"secret". -/
def sampleToken (c : Claims) : String :=
  match SignedString decimalWire plainHashes .HS256 c (bytes "secret") with
  | .ok t => t
  | .error _ => ""

end jwt

/-- The process environment of `TestAuthHandler`: `AUTH_USERNAME` and
`AUTH_PASSWORD` are set, nothing else. -/
def testEnviron (key : String) : String :=
  if key = "AUTH_USERNAME" then "testuser"
  else if key = "AUTH_PASSWORD" then "testpass"
  else ""

/-- The service `TestAuthHandler` builds: only the signing secret is given. -/
def testService : SecretService := { config := { JWTSecret := "test-secret" } }

namespace internal

/-- The request `ChatHandler` hands to `client.Do` for a decoded chat request. -/
def outboundRequest (WorkHistoryPrompt : String) (s : ChatService) (req : ChatRequest) :
    OutboundRequest :=
  { Method := "POST", URL := "https://api.openai.com/v1/chat/completions",
    Body := .obj
      [ ("model", .str "gpt-3.5-turbo"),
        ("messages", .arr
          [ .obj [("role", .str "system"), ("content", .str (WorkHistoryPrompt ++ "\n\nYou are Ethan's AI assistant on his portfolio website. Be helpful, professional, and represent Ethan well. Keep responses concise and engaging. Reference the work history above if relevant."))],
            .obj [("role", .str "user"), ("content", .str req.Message)] ]),
        ("max_tokens", .num "150"),
        ("temperature", .num "0.7") ],
    ContentType := "application/json",
    Authorization := "Bearer " ++ s.Config.OpenAIKey }

/-- A network that answers every request with the same result. -/
def cannedTransport (result : Except TransportError UpstreamResponse) : Transport :=
  fun _ _ => result

end internal

/-! ## Go strings: lemmas -/

theorem HasPrefix_iff (s p : String) : HasPrefix s p = true ↔ ∃ t, s.data = p.data ++ t := by
  unfold HasPrefix
  rw [List.isPrefixOf_iff_prefix]
  constructor
  · rintro ⟨t, ht⟩
    exact ⟨t, ht.symm⟩
  · rintro ⟨t, ht⟩
    exact ⟨t, ht.symm⟩

/-- Go `strings.TrimPrefix` returns its argument unchanged exactly when the
argument does not start with the (non-empty) prefix. -/
theorem TrimPrefix_eq_self_iff (s p : String) (hp : p ≠ "") :
    TrimPrefix s p = s ↔ HasPrefix s p = false := by
  unfold TrimPrefix
  by_cases h : HasPrefix s p = true
  · simp only [h, if_true]
    constructor
    · intro e
      exfalso
      have hl : (s.data.drop p.data.length).length = s.data.length := by
        have := congrArg String.data e
        simpa using congrArg List.length this
      obtain ⟨t, ht⟩ := (HasPrefix_iff s p).1 h
      have hpl : 0 < p.data.length := by
        rcases hpd : p.data with _ | ⟨c, cs⟩
        · exact absurd (String.ext hpd) hp
        · simp
      rw [List.length_drop, ht, List.length_append] at hl
      omega
    · intro e
      simp at e
  · simp only [h]
    simp

theorem TrimPrefix_append (p t : String) : TrimPrefix (p ++ t) p = t := by
  unfold TrimPrefix
  have h : HasPrefix (p ++ t) p = true := (HasPrefix_iff _ _).2 ⟨t.data, by simp⟩
  rw [if_pos h]
  apply String.ext
  simp

/-! ## The decimal encoding is lawful -/

theorem mem_intersperse_cases {α} (a : α) : ∀ (xs : List α) (x : α),
    x ∈ List.intersperse a xs → x = a ∨ x ∈ xs
  | [], x, h => by simp at h
  | [y], x, h => by
    simp at h
    simp [h]
  | y :: z :: tl, x, h => by
    rw [List.intersperse_cons_cons] at h
    rcases List.mem_cons.1 h with h | h
    · exact Or.inr (by simp [h])
    · rcases List.mem_cons.1 h with h | h
      · exact Or.inl h
      · rcases mem_intersperse_cases a (z :: tl) x h with h | h
        · exact Or.inl h
        · exact Or.inr (List.mem_cons_of_mem _ h)

theorem mem_intercalate_cases {α} (sep : α) (ls : List (List α)) (c : α)
    (h : c ∈ List.intercalate [sep] ls) : c = sep ∨ ∃ l ∈ ls, c ∈ l := by
  unfold List.intercalate at h
  rw [List.mem_flatten] at h
  obtain ⟨l, hl, hc⟩ := h
  rcases mem_intersperse_cases _ _ _ hl with e | hm
  · subst e
    exact Or.inl (by simpa using hc)
  · exact Or.inr ⟨l, hm, hc⟩

namespace jwt

theorem decNat_encNat (n : Nat) : decNat (encNat n) = n := by
  unfold decNat encNat
  simp only [List.tail_cons, List.map_map]
  have : List.map ((fun c : Char => c.toNat - 48) ∘ fun d => Char.ofNat (48 + d)) (Nat.digits 10 n)
      = Nat.digits 10 n := by
    conv_rhs => rw [← List.map_id (Nat.digits 10 n)]
    apply List.map_congr_left
    intro d hd
    have hlt : d < 10 := Nat.digits_lt_base (by norm_num) hd
    simp only [Function.comp, id]
    interval_cases d <;> rfl
  rw [this, Nat.ofDigits_digits]

theorem encNat_chars (n : Nat) (c : Char) (h : c ∈ encNat n) :
    c ≠ '_' ∧ c ≠ '.' ∧ c ≠ ' ' := by
  unfold encNat at h
  rcases List.mem_cons.1 h with h | h
  · subst h; decide
  · obtain ⟨d, hd, rfl⟩ := List.mem_map.1 h
    have hlt : d < 10 := Nat.digits_lt_base (by norm_num) hd
    interval_cases d <;> decide

theorem decList_encList (ns : List Nat) : decList (encList ns) = ns := by
  unfold decList encList
  rw [List.splitOn_intercalate]
  · simp [decNat_encNat, Function.comp_def]
  · intro l hl hmem
    rcases List.mem_cons.1 hl with e | hl
    · subst e; exact (encNat_chars _ _ hmem).1 rfl
    · obtain ⟨n, _, rfl⟩ := List.mem_map.1 hl
      exact (encNat_chars _ _ hmem).1 rfl
  · simp

theorem encList_chars (ns : List Nat) (c : Char) (h : c ∈ encList ns) : c ≠ '.' ∧ c ≠ ' ' := by
  rcases mem_intercalate_cases _ _ _ h with e | ⟨l, hl, hc⟩
  · subst e; decide
  · rcases List.mem_cons.1 hl with e | hl
    · subst e; exact (encNat_chars _ _ hc).2
    · obtain ⟨n, _, rfl⟩ := List.mem_map.1 hl
      exact (encNat_chars _ _ hc).2

theorem encList_ne_nil (ns : List Nat) : encList ns ≠ [] := by
  unfold encList encNat
  cases ns <;> simp [List.intercalate, List.intersperse]

theorem decDate_encDate (o : Option NumericDate) : decDate (encDate o) = o := by
  cases o <;> simp [decDate, encDate]

theorem decClaims_encClaims (c : Claims) : decClaims (encClaims c) = some c := by
  simp [decClaims, encClaims, decDate_encDate, Function.comp_def]

theorem decimalWire_lawful : decimalWire.Lawful where
  header alg := by
    simp [decimalWire, decList_encList, Function.comp_def]
  claims c := by
    simp [decimalWire, decList_encList, decClaims_encClaims]
  segment sig := by
    have hb : ∀ b : UInt8, UInt8.ofNat b.toNat = b := by
      intro b
      cases b with
      | mk v => simp [UInt8.ofNat, UInt8.toNat]
    simp [decimalWire, decList_encList, Function.comp_def, hb]
  header_dot alg hmem := (encList_chars _ _ hmem).1 rfl
  claims_dot c hmem := (encList_chars _ _ hmem).1 rfl
  segment_dot sig hmem := (encList_chars _ _ hmem).1 rfl
  header_blank alg hmem := (encList_chars _ _ hmem).2 rfl
  header_ne alg := encList_ne_nil _

end jwt

/-! ## Signing and parsing -/

namespace jwt

theorem hmacMethod_Alg (m : SigningMethodHMAC) : hmacMethod m.Alg = some m := by
  cases m <;> decide

theorem splitOn_serialised (W : Wire) (hW : W.Lawful) (m : SigningMethodHMAC) (c : Claims)
    (sig : List UInt8) :
    (SigningString W m c ++ '.' :: W.EncodeSegment sig).splitOn '.'
      = [W.EncodeHeader m.Alg, W.EncodeClaims c, W.EncodeSegment sig] := by
  have e : SigningString W m c ++ '.' :: W.EncodeSegment sig
      = List.intercalate ['.'] [W.EncodeHeader m.Alg, W.EncodeClaims c, W.EncodeSegment sig] := by
    simp [SigningString, List.intercalate, List.intersperse]
  rw [e]
  apply List.splitOn_intercalate
  · intro l hl
    simp only [List.mem_cons, List.mem_singleton, List.not_mem_nil, or_false] at hl
    rcases hl with rfl | rfl | rfl
    · exact hW.header_dot _
    · exact hW.claims_dot _
    · exact hW.segment_dot _
  · simp

theorem ParseUnverified_serialised (W : Wire) (hW : W.Lawful) (m : SigningMethodHMAC)
    (c : Claims) (sig : List UInt8) :
    ParseUnverified W (String.mk (SigningString W m c ++ '.' :: W.EncodeSegment sig))
      = .ok ({ Method := m, Claims := c, Valid := false },
          W.EncodeHeader m.Alg, W.EncodeClaims c, W.EncodeSegment sig) := by
  unfold ParseUnverified
  simp only [splitOn_serialised W hW, hW.header, hW.claims, hmacMethod_Alg]

/-- A signed string is three segments: what `SignedString` returns when it
succeeds. -/
theorem SignedString_ok (W : Wire) (h : Hashes) (m : SigningMethodHMAC) (c : Claims)
    (key : List UInt8) (t : String) (ht : SignedString W h m c key = .ok t) :
    h.Available m = true ∧
    t = String.mk (SigningString W m c ++ '.' ::
          W.EncodeSegment (hmacSum h m key (bytes (String.mk (SigningString W m c))))) := by
  unfold SignedString Sign at ht
  by_cases ha : h.Available m = true
  · simp only [ha, if_true] at ht
    injection ht with ht
    exact ⟨ha, ht.symm⟩
  · simp only [ha] at ht
    simp at ht

/-- Parsing a signed string under a key: the signature check compares the two
HMACs of the signing string, then the claims are validated. -/
theorem ParseWithClaims_signed (W : Wire) (hW : W.Lawful) (h : Hashes) (m : SigningMethodHMAC)
    (c : Claims) (key key2 : List UInt8) (t : String) (now : Time)
    (ht : SignedString W h m c key = .ok t) :
    ParseWithClaims W h now t key2 =
      if hmacSum h m key (bytes (String.mk (SigningString W m c)))
          = hmacSum h m key2 (bytes (String.mk (SigningString W m c))) then
        match Validate now c.toRegisteredClaims with
        | some e => .error e
        | none => .ok { Method := m, Claims := c, Valid := true }
      else .error .ErrTokenSignatureInvalid := by
  obtain ⟨ha, rfl⟩ := SignedString_ok W h m c key t ht
  unfold ParseWithClaims
  rw [ParseUnverified_serialised W hW]
  simp only [hW.segment, Verify, ha, if_true]
  have e : W.EncodeHeader m.Alg ++ '.' :: W.EncodeClaims c = SigningString W m c := rfl
  rw [e]
  by_cases hs : hmacSum h m key (bytes (String.mk (SigningString W m c)))
      = hmacSum h m key2 (bytes (String.mk (SigningString W m c)))
  · simp only [hs, if_true]
  · simp only [hs, if_false]

end jwt

/-! ## The authentication endpoint -/

/-- C1. For every configuration and every decoded body whose user name and
password are not both equal to the configured pair, `authHandler` answers 401
with the JSON body holding an empty token and the error "Invalid credentials",
and hands nothing to the signer. -/
theorem authHandler_invalid_credentials (W : jwt.Wire) (h : jwt.Hashes) (s : SecretService)
    (now : Time) (req : AuthRequest)
    (hne : (req.Username, req.Password) ≠ (s.config.AuthUsername, s.config.AuthPassword)) :
    s.authHandler W h now (some req) =
      { Response :=
          { StatusCode := 401, ContentType := "application/json",
            Body := .json (.obj [("token", .str ""), ("error", .str "Invalid credentials")]) },
        Signed := [] } := by
  have hor : req.Username ≠ s.config.AuthUsername ∨ req.Password ≠ s.config.AuthPassword := by
    by_contra hcon
    push_neg at hcon
    exact hne (Prod.ext hcon.1 hcon.2)
  simp only [SecretService.authHandler, if_pos hor]
  rfl

theorem authHandler_invalid_credentials_witness :
    (({ config := { JWTSecret := "test-secret" } } : SecretService).authHandler
        jwt.decimalWire jwt.plainHashes 0 (some { Username := "wronguser", Password := "wrongpass" })
      = { Response :=
            { StatusCode := 401, ContentType := "application/json",
              Body := .json (.obj [("token", .str ""), ("error", .str "Invalid credentials")]) },
          Signed := [] }) :=
  authHandler_invalid_credentials jwt.decimalWire jwt.plainHashes
    { config := { JWTSecret := "test-secret" } } 0
    { Username := "wronguser", Password := "wrongpass" } (by decide)

/-- The claims `authHandler` signs for a user at an instant. -/
theorem authHandler_match (W : jwt.Wire) (h : jwt.Hashes) (s : SecretService) (now : Time)
    (req : AuthRequest) (hu : req.Username = s.config.AuthUsername)
    (hp : req.Password = s.config.AuthPassword) :
    s.authHandler W h now (some req) =
      match jwt.SignedString W h .HS256
          { Username := req.Username,
            ExpiresAt := some (jwt.NewNumericDate (now + 24 * time.Hour)) }
          (bytes s.config.JWTSecret) with
      | .error _ =>
        { Response := writeJSON http.StatusInternalServerError
            (AuthResponse.toJSON { Error := "Failed to generate token" }),
          Signed := [{ Username := req.Username,
                       ExpiresAt := some (jwt.NewNumericDate (now + 24 * time.Hour)) }] }
      | .ok tokenString =>
        { Response := writeJSON http.StatusOK (AuthResponse.toJSON { Token := tokenString }),
          Signed := [{ Username := req.Username,
                       ExpiresAt := some (jwt.NewNumericDate (now + 24 * time.Hour)) }] } := by
  have hor : ¬ (req.Username ≠ s.config.AuthUsername ∨ req.Password ≠ s.config.AuthPassword) := by
    simp [hu, hp]
  simp only [SecretService.authHandler, if_neg hor]

theorem NewNumericDate_le (t : Time) : (jwt.NewNumericDate t).Time ≤ t := by
  unfold jwt.NewNumericDate jwt.NumericDate.Time
  exact Nat.div_mul_le_self t time.Second

theorem NewNumericDate_lt (t : Nat) : t < (jwt.NewNumericDate t).Time + time.Second := by
  have hpos : 0 < time.Second := by decide
  have h1 := Nat.div_add_mod t time.Second
  have h2 := Nat.mod_lt t hpos
  have h3 : (jwt.NewNumericDate t).Time = time.Second * (t / time.Second) := Nat.mul_comm _ _
  rw [h3]
  omega

/-- C2 as stated fails: issued half a second past a whole second, the token
carries the expiration 86400 s, not the issuance instant plus 24 hours
(86400.5 s). -/
theorem authHandler_expiration_counterexample :
    ((({ config := { JWTSecret := "secret", AuthUsername := "admin", AuthPassword := "changeme" } }
          : SecretService).authHandler jwt.decimalWire jwt.plainHashes 500000000
        (some { Username := "admin", Password := "changeme" })).Signed.map
      (fun c => c.ExpiresAt.map jwt.NumericDate.Time) = [some 86400000000000])
    ∧ 86400000000000 ≠ 500000000 + 24 * time.Hour := by
  constructor
  · rw [authHandler_match _ _ _ _ _ rfl rfl]
    rfl
  · decide

/-- C2, amended. For every configuration and every request whose user name and
password equal the configured pair, when the signer is available `authHandler`
answers 200 with a JSON body holding only a non-empty token; the token is the
HS256 serialisation, under the configured secret, of claims that are exactly
the submitted user name and the expiration: the issuance instant plus 24
hours, truncated down to the whole second. The token parses back to those
claims and its signature verifies under the configured secret. -/
theorem authHandler_issues_token (W : jwt.Wire) (hW : W.Lawful) (h : jwt.Hashes)
    (s : SecretService) (now : Time) (req : AuthRequest)
    (hu : req.Username = s.config.AuthUsername) (hp : req.Password = s.config.AuthPassword)
    (hsign : h.Available .HS256 = true) :
    ∃ (tokenString : String) (claims : Claims),
      s.authHandler W h now (some req) =
        { Response :=
            { StatusCode := 200, ContentType := "application/json",
              Body := .json (.obj [("token", .str tokenString)]) },
          Signed := [claims] }
      ∧ tokenString ≠ ""
      ∧ claims = { Username := req.Username, NotBefore := none, IssuedAt := none,
                   ExpiresAt := some { Unix := (now + 24 * time.Hour) / time.Second } }
      ∧ (∃ exp, claims.ExpiresAt = some exp ∧ exp.Time ≤ now + 24 * time.Hour
            ∧ now + 24 * time.Hour < exp.Time + time.Second)
      ∧ jwt.SignedString W h .HS256 claims (bytes s.config.JWTSecret) = .ok tokenString
      ∧ (∃ p0 p1 p2 sig,
          jwt.ParseUnverified W tokenString
            = .ok ({ Method := .HS256, Claims := claims, Valid := false }, p0, p1, p2)
          ∧ W.DecodeSegment p2 = some sig
          ∧ jwt.Verify h .HS256 (p0 ++ '.' :: p1) sig (bytes s.config.JWTSecret) = none) := by
  obtain ⟨tok, htok⟩ : ∃ tok, jwt.SignedString W h .HS256
      { Username := req.Username,
        ExpiresAt := some (jwt.NewNumericDate (now + 24 * time.Hour)) }
      (bytes s.config.JWTSecret) = .ok tok := by
    simp [jwt.SignedString, jwt.Sign, hsign]
  refine ⟨tok, { Username := req.Username,
                 ExpiresAt := some (jwt.NewNumericDate (now + 24 * time.Hour)) }, ?_, ?_, rfl,
    ⟨_, rfl, NewNumericDate_le _, NewNumericDate_lt _⟩, htok, ?_⟩
  · rw [authHandler_match W h s now req hu hp, htok]
    rfl
  · obtain ⟨_, rfl⟩ := jwt.SignedString_ok _ _ _ _ _ _ htok
    intro e
    have := congrArg String.data e
    simp [jwt.SigningString] at this
  · obtain ⟨_, rfl⟩ := jwt.SignedString_ok _ _ _ _ _ _ htok
    refine ⟨_, _, _, _, jwt.ParseUnverified_serialised W hW _ _ _, hW.segment _, ?_⟩
    simp [jwt.Verify, hsign, jwt.SigningString]

theorem authHandler_issues_token_witness :
    ∃ (tokenString : String) (claims : Claims),
      ({ config := { JWTSecret := "secret", AuthUsername := "admin", AuthPassword := "changeme" } }
          : SecretService).authHandler jwt.decimalWire jwt.plainHashes 500000000
        (some { Username := "admin", Password := "changeme" }) =
        { Response :=
            { StatusCode := 200, ContentType := "application/json",
              Body := .json (.obj [("token", .str tokenString)]) },
          Signed := [claims] }
      ∧ tokenString ≠ ""
      ∧ claims = { Username := "admin", NotBefore := none, IssuedAt := none,
                   ExpiresAt := some { Unix := (500000000 + 24 * time.Hour) / time.Second } }
      ∧ (∃ exp, claims.ExpiresAt = some exp ∧ exp.Time ≤ 500000000 + 24 * time.Hour
            ∧ 500000000 + 24 * time.Hour < exp.Time + time.Second)
      ∧ jwt.SignedString jwt.decimalWire jwt.plainHashes .HS256 claims (bytes "secret")
          = .ok tokenString
      ∧ (∃ p0 p1 p2 sig,
          jwt.ParseUnverified jwt.decimalWire tokenString
            = .ok ({ Method := .HS256, Claims := claims, Valid := false }, p0, p1, p2)
          ∧ jwt.decimalWire.DecodeSegment p2 = some sig
          ∧ jwt.Verify jwt.plainHashes .HS256 (p0 ++ '.' :: p1) sig (bytes "secret") = none) :=
  authHandler_issues_token jwt.decimalWire jwt.decimalWire_lawful jwt.plainHashes
    { config := { JWTSecret := "secret", AuthUsername := "admin", AuthPassword := "changeme" } }
    500000000 { Username := "admin", Password := "changeme" } rfl rfl rfl

/-! ## The token gate -/

theorem bearer_ne_empty : ("Bearer " : String) ≠ "" := by decide

/-- The gate on a non-empty header that does not start with the bearer prefix. -/
theorem jwtMiddleware_no_bearer (W : jwt.Wire) (h : jwt.Hashes) (s : SecretService) (now : Time)
    (r : Request) (he : r.Authorization ≠ "")
    (hp : HasPrefix r.Authorization "Bearer " = false) :
    s.jwtMiddleware W h now r = unauthorized "Bearer token required" := by
  unfold SecretService.jwtMiddleware
  have ht : TrimPrefix r.Authorization "Bearer " = r.Authorization :=
    (TrimPrefix_eq_self_iff _ _ bearer_ne_empty).2 hp
  simp only [he, if_false, ht, if_true]
  rfl

/-- The gate on a missing header. -/
theorem jwtMiddleware_missing (W : jwt.Wire) (h : jwt.Hashes) (s : SecretService) (now : Time)
    (r : Request) (he : r.Authorization = "") :
    s.jwtMiddleware W h now r = unauthorized "Authorization header required" := by
  unfold SecretService.jwtMiddleware
  simp only [he, if_true]
  rfl

/-- The gate on a header that starts with the bearer prefix: the outcome is
decided by parsing the remainder. -/
theorem jwtMiddleware_bearer (W : jwt.Wire) (h : jwt.Hashes) (s : SecretService) (now : Time)
    (r : Request) (hp : HasPrefix r.Authorization "Bearer " = true) :
    s.jwtMiddleware W h now r =
      match jwt.ParseWithClaims W h now (String.mk (r.Authorization.data.drop 7))
          (bytes s.config.JWTSecret) with
      | .error _ => unauthorized "Invalid token"
      | .ok token => if token.Valid = true then { Written := none, Next := [r] }
                     else unauthorized "Invalid token" := by
  unfold SecretService.jwtMiddleware
  have he : r.Authorization ≠ "" := by
    intro e
    rw [e] at hp
    exact absurd hp (by decide)
  have ht : TrimPrefix r.Authorization "Bearer " ≠ r.Authorization := by
    intro e
    have := (TrimPrefix_eq_self_iff _ _ bearer_ne_empty).1 e
    rw [hp] at this
    exact absurd this (by decide)
  have hd : TrimPrefix r.Authorization "Bearer " = String.mk (r.Authorization.data.drop 7) := by
    unfold TrimPrefix
    rw [if_pos hp]
    rfl
  have ht2 : String.mk (r.Authorization.data.drop 7) ≠ r.Authorization := by
    rw [← hd]
    exact ht
  simp only [he, if_false, hd, ht2]
  cases jwt.ParseWithClaims W h now (String.mk (r.Authorization.data.drop 7))
      (bytes s.config.JWTSecret) with
  | error e => rfl
  | ok token =>
    cases hv : token.Valid <;> simp [hv, unauthorized]

theorem ParseWithClaims_empty (W : jwt.Wire) (h : jwt.Hashes) (now : Time) (key : List UInt8) :
    jwt.ParseWithClaims W h now "" key = .error .ErrTokenMalformed := by
  rfl

/-- C3. For every request the token gate ends in exactly one of two states:
it passes the request to the next handler once and writes nothing, or it
writes a 401 and passes nothing on. It forwards if and only if the
Authorization header is non-empty, starts with "Bearer " and the remainder
parses as a valid token. A missing header, the header "Bearer", a header
starting with "bearer ", a header "Bearer " with an empty token and a
prefixed header whose token does not parse all end in 401. -/
theorem jwtMiddleware_terminal_states (W : jwt.Wire) (h : jwt.Hashes) (s : SecretService)
    (now : Time) (r : Request) :
    ((s.jwtMiddleware W h now r = { Written := none, Next := [r] })
      ∨ (∃ message, s.jwtMiddleware W h now r =
          { Written := some { StatusCode := 401, ContentType := "text/plain; charset=utf-8",
                              Body := .text (message ++ "\n") },
            Next := [] }))
    ∧ ((s.jwtMiddleware W h now r).Next = [r] ↔
        (r.Authorization ≠ "" ∧ HasPrefix r.Authorization "Bearer " = true ∧
          ∃ token, jwt.ParseWithClaims W h now (String.mk (r.Authorization.data.drop 7))
              (bytes s.config.JWTSecret) = .ok token ∧ token.Valid = true))
    ∧ ((s.jwtMiddleware W h now r).Written = none ↔ (s.jwtMiddleware W h now r).Next = [r])
    ∧ s.jwtMiddleware W h now { r with Authorization := "" }
        = unauthorized "Authorization header required"
    ∧ s.jwtMiddleware W h now { r with Authorization := "Bearer" }
        = unauthorized "Bearer token required"
    ∧ (∀ rest, s.jwtMiddleware W h now { r with Authorization := "bearer " ++ rest }
        = unauthorized "Bearer token required")
    ∧ s.jwtMiddleware W h now { r with Authorization := "Bearer " }
        = unauthorized "Invalid token"
    ∧ (∀ tokenString e,
        jwt.ParseWithClaims W h now tokenString (bytes s.config.JWTSecret) = .error e →
        s.jwtMiddleware W h now { r with Authorization := "Bearer " ++ tokenString }
          = unauthorized "Invalid token") := by
  have key : ∀ r : Request,
      (s.jwtMiddleware W h now r = { Written := none, Next := [r] } ∧
        (r.Authorization ≠ "" ∧ HasPrefix r.Authorization "Bearer " = true ∧
          ∃ token, jwt.ParseWithClaims W h now (String.mk (r.Authorization.data.drop 7))
              (bytes s.config.JWTSecret) = .ok token ∧ token.Valid = true))
      ∨ ((∃ message, s.jwtMiddleware W h now r = unauthorized message) ∧
        ¬ (r.Authorization ≠ "" ∧ HasPrefix r.Authorization "Bearer " = true ∧
          ∃ token, jwt.ParseWithClaims W h now (String.mk (r.Authorization.data.drop 7))
              (bytes s.config.JWTSecret) = .ok token ∧ token.Valid = true)) := by
    intro r
    cases hp : HasPrefix r.Authorization "Bearer " with
    | false =>
      right
      refine ⟨?_, fun hc => by simp at hc⟩
      by_cases he : r.Authorization = ""
      · exact ⟨_, jwtMiddleware_missing W h s now r he⟩
      · exact ⟨_, jwtMiddleware_no_bearer W h s now r he hp⟩
    | true =>
      have hb := jwtMiddleware_bearer W h s now r hp
      have hne : r.Authorization ≠ "" := by
        intro e
        rw [e] at hp
        exact absurd hp (by decide)
      cases hparse : jwt.ParseWithClaims W h now (String.mk (r.Authorization.data.drop 7))
          (bytes s.config.JWTSecret) with
      | error e =>
        right
        rw [hparse] at hb
        exact ⟨⟨_, hb⟩, fun hc => by simp at hc⟩
      | ok token =>
        rw [hparse] at hb
        cases hv : token.Valid with
        | false =>
          right
          simp only [hv] at hb
          refine ⟨⟨_, hb⟩, ?_⟩
          rintro ⟨_, _, token2, ht2, hv2⟩
          injection ht2 with ht2
          rw [← ht2, hv] at hv2
          exact absurd hv2 (by decide)
        | true =>
          left
          simp only [hv, if_true] at hb
          exact ⟨hb, hne, rfl, token, rfl, hv⟩
  refine ⟨?_, ?_, ?_, ?_, ?_, ?_, ?_, ?_⟩
  · rcases key r with ⟨e, _⟩ | ⟨⟨m, e⟩, _⟩
    · exact Or.inl e
    · exact Or.inr ⟨m, e⟩
  · rcases key r with ⟨e, hc⟩ | ⟨⟨m, e⟩, hc⟩
    · rw [e]
      exact ⟨fun _ => hc, fun _ => rfl⟩
    · rw [e]
      exact ⟨fun hn => by simp [unauthorized] at hn, fun hx => absurd hx hc⟩
  · rcases key r with ⟨e, _⟩ | ⟨⟨m, e⟩, _⟩
    · rw [e]
      simp
    · rw [e]
      simp [unauthorized]
  · rfl
  · rfl
  · intro rest
    have hp : HasPrefix ("bearer " ++ rest) "Bearer " = false := by
      simp [HasPrefix, List.isPrefixOf]
    have hne : ("bearer " ++ rest : String) ≠ "" := by
      intro e2
      have := congrArg String.data e2
      simp at this
    exact jwtMiddleware_no_bearer W h s now { r with Authorization := "bearer " ++ rest } hne hp
  · rfl
  · intro tokenString e hparse
    have hp : HasPrefix ("Bearer " ++ tokenString) "Bearer " = true :=
      (HasPrefix_iff _ _).2 ⟨tokenString.data, by simp⟩
    have hb := jwtMiddleware_bearer W h s now { r with Authorization := "Bearer " ++ tokenString } hp
    have hd : String.mk (("Bearer " ++ tokenString : String).data.drop 7) = tokenString := by
      apply String.ext
      simp
    simp only [hd, hparse] at hb
    exact hb

theorem jwtMiddleware_terminal_states_witness :
    testService.jwtMiddleware jwt.decimalWire jwt.plainHashes 0
        { Authorization := "Bearer " ++ "" } = unauthorized "Invalid token" :=
  (jwtMiddleware_terminal_states jwt.decimalWire jwt.plainHashes testService 0
    { }).2.2.2.2.2.2.2 "" .ErrTokenMalformed rfl

/-- The gate on the header "Bearer " followed by a token string. -/
theorem jwtMiddleware_bearer_token (W : jwt.Wire) (h : jwt.Hashes) (s : SecretService)
    (now : Time) (r : Request) (tokenString : String)
    (hr : r.Authorization = "Bearer " ++ tokenString) :
    s.jwtMiddleware W h now r =
      match jwt.ParseWithClaims W h now tokenString (bytes s.config.JWTSecret) with
      | .error _ => unauthorized "Invalid token"
      | .ok token => if token.Valid = true then { Written := none, Next := [r] }
                     else unauthorized "Invalid token" := by
  have hp : HasPrefix r.Authorization "Bearer " = true :=
    (HasPrefix_iff _ _).2 ⟨tokenString.data, by simp [hr]⟩
  have hd : String.mk (r.Authorization.data.drop 7) = tokenString := by
    apply String.ext
    simp [hr]
  rw [jwtMiddleware_bearer W h s now r hp, hd]

/-- Whether the gate forwards a bearer token, in terms of the parse result. -/
theorem jwtMiddleware_forwards_iff (W : jwt.Wire) (h : jwt.Hashes) (s : SecretService)
    (now : Time) (r : Request) (tokenString : String)
    (hr : r.Authorization = "Bearer " ++ tokenString) :
    (s.jwtMiddleware W h now r = { Written := none, Next := [r] } ∧
      ∃ token, jwt.ParseWithClaims W h now tokenString (bytes s.config.JWTSecret) = .ok token)
    ∨ (s.jwtMiddleware W h now r = unauthorized "Invalid token" ∧
      ∃ e, jwt.ParseWithClaims W h now tokenString (bytes s.config.JWTSecret) = .error e) := by
  rw [jwtMiddleware_bearer_token W h s now r tokenString hr]
  unfold jwt.ParseWithClaims
  rcases jwt.ParseUnverified W tokenString with e | ⟨token, p0, p1, p2⟩
  · exact Or.inr ⟨rfl, _, rfl⟩
  · dsimp only
    cases W.DecodeSegment p2 with
    | none => exact Or.inr ⟨rfl, _, rfl⟩
    | some sig =>
      dsimp only
      cases jwt.Verify h token.Method (p0 ++ '.' :: p1) sig (bytes s.config.JWTSecret) with
      | some e => exact Or.inr ⟨rfl, _, rfl⟩
      | none =>
        dsimp only
        cases jwt.Validate now token.Claims.toRegisteredClaims with
        | some e => exact Or.inr ⟨rfl, _, rfl⟩
        | none => exact Or.inl ⟨rfl, _, rfl⟩

/-- What the default validator accepts. -/
theorem Validate_eq_none_iff (now : Time) (c : jwt.RegisteredClaims) :
    jwt.Validate now c = none ↔
      (∀ exp, c.ExpiresAt = some exp → now < exp.Time) ∧
      (∀ nbf, c.NotBefore = some nbf → nbf.Time ≤ now) := by
  unfold jwt.Validate jwt.verifyExpiresAt jwt.verifyNotBefore
  rcases c with ⟨exp, nbf, iat⟩
  cases exp with
  | none =>
    cases nbf with
    | none => simp
    | some n =>
      by_cases hn : now < n.Time
      · simp [hn]
      · simp [hn, Nat.le_of_not_lt hn]
  | some e =>
    by_cases he : now < e.Time
    · cases nbf with
      | none => simp [he]
      | some n =>
        by_cases hn : now < n.Time
        · simp [he, hn]
        · simp [he, hn, Nat.le_of_not_lt hn]
    · simp [he]

/-- Parsing succeeds exactly when the signature verifies and the validator
accepts the claims the token carries. -/
theorem ParseWithClaims_ok_iff (W : jwt.Wire) (h : jwt.Hashes) (now : Time)
    (tokenString : String) (key : List UInt8) :
    (∃ token, jwt.ParseWithClaims W h now tokenString key = .ok token) ↔
      (jwt.signatureVerifies W h tokenString key = true ∧
        (∀ exp, jwt.expirationOf W tokenString = some exp → now < exp.Time) ∧
        (∀ nbf, jwt.notBeforeOf W tokenString = some nbf → nbf.Time ≤ now)) := by
  unfold jwt.ParseWithClaims jwt.signatureVerifies jwt.expirationOf jwt.notBeforeOf
  rcases jwt.ParseUnverified W tokenString with e | ⟨token, p0, p1, p2⟩
  · simp
  · dsimp only
    cases W.DecodeSegment p2 with
    | none => simp
    | some sig =>
      dsimp only
      cases jwt.Verify h token.Method (p0 ++ '.' :: p1) sig key with
      | some e => simp
      | none =>
        dsimp only
        rw [← Validate_eq_none_iff]
        cases jwt.Validate now token.Claims.toRegisteredClaims with
        | some e => simp
        | none => simp

/-- Whether the gate forwards a bearer token, in terms of what the token
carries. -/
theorem jwtMiddleware_forwards_iff_checks (W : jwt.Wire) (h : jwt.Hashes) (s : SecretService)
    (now : Time) (r : Request) (tokenString : String)
    (hr : r.Authorization = "Bearer " ++ tokenString) :
    (s.jwtMiddleware W h now r = { Written := none, Next := [r] } ∧
      (jwt.signatureVerifies W h tokenString (bytes s.config.JWTSecret) = true ∧
        (∀ exp, jwt.expirationOf W tokenString = some exp → now < exp.Time) ∧
        (∀ nbf, jwt.notBeforeOf W tokenString = some nbf → nbf.Time ≤ now)))
    ∨ (s.jwtMiddleware W h now r = unauthorized "Invalid token" ∧
      ¬ (jwt.signatureVerifies W h tokenString (bytes s.config.JWTSecret) = true ∧
        (∀ exp, jwt.expirationOf W tokenString = some exp → now < exp.Time) ∧
        (∀ nbf, jwt.notBeforeOf W tokenString = some nbf → nbf.Time ≤ now))) := by
  rcases jwtMiddleware_forwards_iff W h s now r tokenString hr with ⟨e, hok⟩ | ⟨e, er, herr⟩
  · exact Or.inl ⟨e, (ParseWithClaims_ok_iff W h now tokenString _).1 hok⟩
  · refine Or.inr ⟨e, fun hc => ?_⟩
    obtain ⟨token, ht⟩ := (ParseWithClaims_ok_iff W h now tokenString _).2 hc
    rw [herr] at ht
    exact absurd ht (by simp)

theorem signatureVerifies_signed (W : jwt.Wire) (hW : W.Lawful) (h : jwt.Hashes)
    (m : jwt.SigningMethodHMAC) (c : Claims) (key key2 : List UInt8) (t : String)
    (ht : jwt.SignedString W h m c key = .ok t) :
    jwt.signatureVerifies W h t key2 =
      decide (jwt.hmacSum h m key (bytes (String.mk (jwt.SigningString W m c)))
          = jwt.hmacSum h m key2 (bytes (String.mk (jwt.SigningString W m c)))) := by
  obtain ⟨ha, rfl⟩ := jwt.SignedString_ok W h m c key t ht
  unfold jwt.signatureVerifies
  rw [jwt.ParseUnverified_serialised W hW]
  simp only [hW.segment, jwt.Verify, ha, if_true]
  have e : W.EncodeHeader m.Alg ++ '.' :: W.EncodeClaims c = jwt.SigningString W m c := rfl
  rw [e]
  by_cases hs : jwt.hmacSum h m key (bytes (String.mk (jwt.SigningString W m c)))
      = jwt.hmacSum h m key2 (bytes (String.mk (jwt.SigningString W m c)))
  · simp [hs]
  · simp [hs]

theorem expirationOf_signed (W : jwt.Wire) (hW : W.Lawful) (h : jwt.Hashes)
    (m : jwt.SigningMethodHMAC) (c : Claims) (key : List UInt8) (t : String)
    (ht : jwt.SignedString W h m c key = .ok t) :
    jwt.expirationOf W t = c.ExpiresAt ∧ jwt.notBeforeOf W t = c.NotBefore := by
  obtain ⟨_, rfl⟩ := jwt.SignedString_ok W h m c key t ht
  unfold jwt.expirationOf jwt.notBeforeOf
  rw [jwt.ParseUnverified_serialised W hW]
  exact ⟨rfl, rfl⟩

theorem sampleToken_signed (c : Claims) :
    jwt.SignedString jwt.decimalWire jwt.plainHashes .HS256 c (bytes "secret")
      = .ok (jwt.sampleToken c) := by
  rfl

/-- C4 as stated fails in both directions. A token signed under the
configured secret that carries no expiration is forwarded; a token signed
under the configured secret whose expiration (100 s) is in the future at
validation time (10 s) is answered 401 because its not-before (50 s) is in
the future too. -/
theorem token_check_counterexample :
    (({ config := { JWTSecret := "secret" } } : SecretService).jwtMiddleware
        jwt.decimalWire jwt.plainHashes 0
        { Authorization := "Bearer " ++ jwt.sampleToken { Username := "admin" } }
      = { Written := none,
          Next := [{ Authorization := "Bearer " ++ jwt.sampleToken { Username := "admin" } }] }
      ∧ jwt.signatureVerifies jwt.decimalWire jwt.plainHashes
          (jwt.sampleToken { Username := "admin" }) (bytes "secret") = true
      ∧ jwt.expirationOf jwt.decimalWire (jwt.sampleToken { Username := "admin" }) = none)
    ∧ (({ config := { JWTSecret := "secret" } } : SecretService).jwtMiddleware
        jwt.decimalWire jwt.plainHashes (10 * time.Second)
        { Authorization := "Bearer " ++ jwt.sampleToken
            { Username := "admin", ExpiresAt := some { Unix := 100 },
              NotBefore := some { Unix := 50 } } }
      = { Written := some { StatusCode := 401, ContentType := "text/plain; charset=utf-8",
                            Body := .text "Invalid token\n" },
          Next := [] }
      ∧ jwt.signatureVerifies jwt.decimalWire jwt.plainHashes
          (jwt.sampleToken { Username := "admin", ExpiresAt := some { Unix := 100 },
                             NotBefore := some { Unix := 50 } }) (bytes "secret") = true
      ∧ jwt.expirationOf jwt.decimalWire
          (jwt.sampleToken { Username := "admin", ExpiresAt := some { Unix := 100 },
                             NotBefore := some { Unix := 50 } }) = some { Unix := 100 }
      ∧ 10 * time.Second < jwt.NumericDate.Time { Unix := 100 }) := by
  refine ⟨⟨?_, ?_, ?_⟩, ?_, ?_, ?_, ?_⟩
  · rw [jwtMiddleware_bearer_token _ _ _ _ _ _ rfl,
      jwt.ParseWithClaims_signed _ jwt.decimalWire_lawful _ _ _ _ _ _ _ (sampleToken_signed _),
      if_pos rfl]
    rfl
  · rw [signatureVerifies_signed _ jwt.decimalWire_lawful _ _ _ _ _ _ (sampleToken_signed _)]
    simp
  · rw [(expirationOf_signed _ jwt.decimalWire_lawful _ _ _ _ _ (sampleToken_signed _)).1]
  · rw [jwtMiddleware_bearer_token _ _ _ _ _ _ rfl,
      jwt.ParseWithClaims_signed _ jwt.decimalWire_lawful _ _ _ _ _ _ _ (sampleToken_signed _),
      if_pos rfl]
    rfl
  · rw [signatureVerifies_signed _ jwt.decimalWire_lawful _ _ _ _ _ _ (sampleToken_signed _)]
    simp
  · rw [(expirationOf_signed _ jwt.decimalWire_lawful _ _ _ _ _ (sampleToken_signed _)).1]
  · decide

/-- Under the stand-in hash the secrets "secret" and "other" sign every
message differently: the first byte of the outer key pad differs. -/
theorem hmacSum_secret_ne_other (msg : List UInt8) :
    jwt.hmacSum jwt.plainHashes .HS256 (bytes "secret") msg
      ≠ jwt.hmacSum jwt.plainHashes .HS256 (bytes "other") msg := by
  intro e
  have hh := congrArg List.head? e
  have h1 : (jwt.hmacSum jwt.plainHashes .HS256 (bytes "secret") msg).head? = some 47 := rfl
  have h2 : (jwt.hmacSum jwt.plainHashes .HS256 (bytes "other") msg).head? = some 51 := rfl
  rw [h1, h2] at hh
  exact absurd hh (by decide)

/-- C4, amended. The token check inside the gate rejects every token string
whose signature does not verify under the configured secret. For a token
string that is the HMAC-signed serialisation of claims whose dates are whole
seconds below 2^53, it accepts if and only if the signature verifies under
the configured secret, the expiration, when the claims carry one, is strictly
in the future, and the not-before, when the claims carry one, is not in the
future. So such a token with an expiration in the past is rejected, and a
correctly signed one with no expiration and no not-before is accepted. -/
theorem jwtMiddleware_token_check (W : jwt.Wire) (hW : W.Lawful) (h : jwt.Hashes)
    (s : SecretService) (now : Time) (r : Request) (tokenString : String)
    (hr : r.Authorization = "Bearer " ++ tokenString) :
    (jwt.signatureVerifies W h tokenString (bytes s.config.JWTSecret) = false →
        s.jwtMiddleware W h now r = unauthorized "Invalid token")
    ∧ ∀ (m : jwt.SigningMethodHMAC) (c : Claims) (key : List UInt8),
        jwt.SignedString W h m c key = .ok tokenString →
        c.toRegisteredClaims.exact = true →
        (jwt.signatureVerifies W h tokenString (bytes s.config.JWTSecret) = true ↔
            jwt.hmacSum h m (bytes s.config.JWTSecret)
                (bytes (String.mk (jwt.SigningString W m c)))
              = jwt.hmacSum h m key (bytes (String.mk (jwt.SigningString W m c))))
        ∧ (s.jwtMiddleware W h now r = { Written := none, Next := [r] } ↔
            (jwt.signatureVerifies W h tokenString (bytes s.config.JWTSecret) = true ∧
              (∀ exp, c.ExpiresAt = some exp → now < exp.Time) ∧
              (∀ nbf, c.NotBefore = some nbf → nbf.Time ≤ now)))
        ∧ (s.jwtMiddleware W h now r = unauthorized "Invalid token" ↔
            ¬ (jwt.signatureVerifies W h tokenString (bytes s.config.JWTSecret) = true ∧
              (∀ exp, c.ExpiresAt = some exp → now < exp.Time) ∧
              (∀ nbf, c.NotBefore = some nbf → nbf.Time ≤ now)))
        ∧ (∀ exp, c.ExpiresAt = some exp → exp.Time ≤ now →
            s.jwtMiddleware W h now r = unauthorized "Invalid token")
        ∧ (jwt.signatureVerifies W h tokenString (bytes s.config.JWTSecret) = true →
            c.ExpiresAt = none → c.NotBefore = none →
            s.jwtMiddleware W h now r = { Written := none, Next := [r] }) := by
  have hne : ({ Written := none, Next := [r] } : GateResult) ≠ unauthorized "Invalid token" := by
    intro e
    have hn := congrArg GateResult.Next e
    simp [unauthorized] at hn
  have hcases := jwtMiddleware_forwards_iff_checks W h s now r tokenString hr
  constructor
  · intro hf
    rcases hcases with ⟨_, hc⟩ | ⟨e, _⟩
    · rw [hc.1] at hf
      exact absurd hf (by decide)
    · exact e
  · intro m c key hT _
    have hsig := signatureVerifies_signed W hW h m c key (bytes s.config.JWTSecret) tokenString hT
    obtain ⟨hexp, hnbf⟩ := expirationOf_signed W hW h m c key tokenString hT
    rw [hexp, hnbf] at hcases
    refine ⟨?_, ?_⟩
    · rw [hsig]
      constructor
      · intro hd
        exact (of_decide_eq_true hd).symm
      · intro he
        exact decide_eq_true he.symm
    · rcases hcases with ⟨e, hc⟩ | ⟨e, hc⟩
      · rw [e]
        refine ⟨⟨fun _ => hc, fun _ => rfl⟩,
          ⟨fun hx => absurd hx hne, fun hx => absurd hc hx⟩, ?_, fun _ _ _ => rfl⟩
        intro exp hexp2 hle
        exact absurd (hc.2.1 exp hexp2) (Nat.not_lt.2 hle)
      · rw [e]
        refine ⟨⟨fun hx => absurd hx.symm hne, fun hx => absurd hx hc⟩,
          ⟨fun _ => hc, fun _ => rfl⟩, fun _ _ _ => rfl, ?_⟩
        intro hs hx hn
        exact absurd ⟨hs, by simp [hx], by simp [hn]⟩ hc

theorem jwtMiddleware_token_check_witness :
    (({ config := { JWTSecret := "secret" } } : SecretService).jwtMiddleware
        jwt.decimalWire jwt.plainHashes (10 * time.Second)
        { Authorization := "Bearer " ++ (jwt.sampleToken
            { Username := "admin", ExpiresAt := some { Unix := 100 } }) }
      = { Written := none,
          Next := [{ Authorization := "Bearer " ++ (jwt.sampleToken
            { Username := "admin", ExpiresAt := some { Unix := 100 } }) }] })
    ∧ (({ config := { JWTSecret := "secret" } } : SecretService).jwtMiddleware
        jwt.decimalWire jwt.plainHashes (100 * time.Second)
        { Authorization := "Bearer " ++ (jwt.sampleToken
            { Username := "admin", ExpiresAt := some { Unix := 100 } }) }
      = unauthorized "Invalid token")
    ∧ (({ config := { JWTSecret := "other" } } : SecretService).jwtMiddleware
        jwt.decimalWire jwt.plainHashes (10 * time.Second)
        { Authorization := "Bearer " ++ (jwt.sampleToken
            { Username := "admin", ExpiresAt := some { Unix := 100 } }) }
      = unauthorized "Invalid token") := by
  have hv : jwt.signatureVerifies jwt.decimalWire jwt.plainHashes
      (jwt.sampleToken { Username := "admin", ExpiresAt := some { Unix := 100 } })
      (bytes "secret") = true := by
    rw [signatureVerifies_signed _ jwt.decimalWire_lawful _ _ _ _ _ _ (sampleToken_signed _)]
    exact decide_eq_true rfl
  have hw : jwt.signatureVerifies jwt.decimalWire jwt.plainHashes
      (jwt.sampleToken { Username := "admin", ExpiresAt := some { Unix := 100 } })
      (bytes "other") = false := by
    rw [signatureVerifies_signed _ jwt.decimalWire_lawful _ _ _ _ _ _ (sampleToken_signed _)]
    exact decide_eq_false (fun e => hmacSum_secret_ne_other _ e)
  refine ⟨?_, ?_, ?_⟩
  · exact ((jwtMiddleware_token_check jwt.decimalWire jwt.decimalWire_lawful jwt.plainHashes
      { config := { JWTSecret := "secret" } } (10 * time.Second) _ _ rfl).2
        .HS256 { Username := "admin", ExpiresAt := some { Unix := 100 } } (bytes "secret")
        (sampleToken_signed _) rfl).2.1.2
      ⟨hv, fun exp he => by
        injection he with he
        subst he
        decide, fun nbf hn => by simp at hn⟩
  · exact ((jwtMiddleware_token_check jwt.decimalWire jwt.decimalWire_lawful jwt.plainHashes
      { config := { JWTSecret := "secret" } } (100 * time.Second) _ _ rfl).2
        .HS256 { Username := "admin", ExpiresAt := some { Unix := 100 } } (bytes "secret")
        (sampleToken_signed _) rfl).2.2.2.1 { Unix := 100 } rfl (by decide)
  · exact (jwtMiddleware_token_check jwt.decimalWire jwt.decimalWire_lawful jwt.plainHashes
      { config := { JWTSecret := "other" } } (10 * time.Second) _ _ rfl).1 hw

/-! ## Round trip: issue, then gate -/

/-- A successful `authHandler` call: the body decoded, the credentials matched
and the token in the response is the signed string of the claims. -/
theorem authHandler_success (W : jwt.Wire) (h : jwt.Hashes) (s : SecretService) (t : Time)
    (body : Option AuthRequest) (T : String)
    (hT : (s.authHandler W h t body).Response =
      { StatusCode := 200, ContentType := "application/json",
        Body := .json (.obj [("token", .str T)]) }) :
    jwt.SignedString W h .HS256
        { Username := s.config.AuthUsername,
          ExpiresAt := some (jwt.NewNumericDate (t + 24 * time.Hour)) }
        (bytes s.config.JWTSecret) = .ok T := by
  cases body with
  | none =>
    have hc : (400 : Nat) = 200 := congrArg Response.StatusCode hT
    exact absurd hc (by decide)
  | some req =>
    by_cases hor : req.Username ≠ s.config.AuthUsername ∨ req.Password ≠ s.config.AuthPassword
    · simp only [SecretService.authHandler, if_pos hor] at hT
      have hc : (401 : Nat) = 200 := congrArg Response.StatusCode hT
      exact absurd hc (by decide)
    · push_neg at hor
      rw [authHandler_match W h s t req hor.1 hor.2, hor.1] at hT
      cases hs : jwt.SignedString W h .HS256
          { Username := s.config.AuthUsername,
            ExpiresAt := some (jwt.NewNumericDate (t + 24 * time.Hour)) }
          (bytes s.config.JWTSecret) with
      | error e =>
        rw [hs] at hT
        have hc : (500 : Nat) = 200 := congrArg Response.StatusCode hT
        exact absurd hc (by decide)
      | ok tok =>
        rw [hs] at hT
        have hb := congrArg Response.Body hT
        simp only [writeJSON, AuthResponse.toJSON, omitempty] at hb
        simp at hb
        rw [hb]

/-- A serialised token never starts with the bearer prefix: its header
segment has no blank and is followed by a dot. -/
theorem serialised_not_bearer (H X : List Char) (hb : ' ' ∉ H) :
    HasPrefix (String.mk (H ++ '.' :: X)) "Bearer " = false := by
  unfold HasPrefix
  show List.isPrefixOf ['B', 'e', 'a', 'r', 'e', 'r', ' '] (H ++ '.' :: X) = false
  rcases H with _ | ⟨c1, _ | ⟨c2, _ | ⟨c3, _ | ⟨c4, _ | ⟨c5, _ | ⟨c6, _ | ⟨c7, H⟩⟩⟩⟩⟩⟩⟩ <;>
    simp [List.isPrefixOf] at hb ⊢
  intro _ _ _ _ _ _ h7
  exact absurd h7 hb.2.2.2.2.2.2.1

theorem keyBlock_trailing_zero (h : jwt.Hashes) :
    jwt.keyBlock h .HS256 (bytes "secret\x00") = jwt.keyBlock h .HS256 (bytes "secret") := by
  rfl

/-- A secret and the same secret followed by a zero byte give the same HMAC. -/
theorem hmacSum_trailing_zero (h : jwt.Hashes) (msg : List UInt8) :
    jwt.hmacSum h .HS256 (bytes "secret") msg = jwt.hmacSum h .HS256 (bytes "secret\x00") msg := by
  unfold jwt.hmacSum
  rw [keyBlock_trailing_zero]

/-- The default validator on claims that carry only an expiration. -/
theorem Validate_exp_only (now : Time) (exp : jwt.NumericDate) :
    jwt.Validate now { ExpiresAt := some exp } =
      if now < exp.Time then none else some .ErrTokenExpired := by
  unfold jwt.Validate jwt.verifyExpiresAt jwt.verifyNotBefore
  by_cases hlt : now < exp.Time
  · simp only [if_pos hlt]
  · simp only [if_neg hlt]

/-- The gate on a token `authHandler` signed under one secret, checked under a
second secret at a later instant. -/
theorem jwtMiddleware_issued (W : jwt.Wire) (hW : W.Lawful) (h : jwt.Hashes) (user : String)
    (key : List UInt8) (t : Time) (T : String) (s2 : SecretService) (now : Time) (r : Request)
    (hT : jwt.SignedString W h .HS256
      { Username := user, ExpiresAt := some (jwt.NewNumericDate (t + 24 * time.Hour)) } key
        = .ok T)
    (hr : r.Authorization = "Bearer " ++ T)
    (hk : jwt.hmacSum h .HS256 key (bytes (String.mk (jwt.SigningString W .HS256
            { Username := user, ExpiresAt := some (jwt.NewNumericDate (t + 24 * time.Hour)) })))
        = jwt.hmacSum h .HS256 (bytes s2.config.JWTSecret)
            (bytes (String.mk (jwt.SigningString W .HS256
            { Username := user,
              ExpiresAt := some (jwt.NewNumericDate (t + 24 * time.Hour)) })))) :
    s2.jwtMiddleware W h now r =
      if now < (jwt.NewNumericDate (t + 24 * time.Hour)).Time then { Written := none, Next := [r] }
      else unauthorized "Invalid token" := by
  rw [jwtMiddleware_bearer_token W h s2 now r T hr,
    jwt.ParseWithClaims_signed W hW h _ _ key _ T now hT, if_pos hk]
  have hv : jwt.Validate now
      ({ Username := user,
         ExpiresAt := some (jwt.NewNumericDate (t + 24 * time.Hour)) } : Claims).toRegisteredClaims
      = if now < (jwt.NewNumericDate (t + 24 * time.Hour)).Time then none
        else some .ErrTokenExpired := Validate_exp_only now _
  rw [hv]
  by_cases hlt : now < (jwt.NewNumericDate (t + 24 * time.Hour)).Time
  · rw [if_pos hlt, if_pos hlt]
    rfl
  · rw [if_neg hlt, if_neg hlt]

/-- The concrete signer answers the configured pair, half a second past the
epoch, with the token that expires at 86400 s. -/
theorem sample_issue :
    (({ config := { JWTSecret := "secret", AuthUsername := "admin", AuthPassword := "changeme" } }
          : SecretService).authHandler jwt.decimalWire jwt.plainHashes 500000000
        (some { Username := "admin", Password := "changeme" })).Response
      = { StatusCode := 200, ContentType := "application/json",
          Body := .json (.obj [("token", .str (jwt.sampleToken
            { Username := "admin", ExpiresAt := some { Unix := 86400 } }))]) } := by
  rw [authHandler_match _ _ _ _ _ rfl rfl]
  rfl

/-- C5 as stated fails twice. A token issued half a second past a whole second
expires at 86400 s: presented at 86400.2 s, before issuance plus 24 hours
(86400.5 s), it is answered 401. And the token issued under the secret
"secret" is forwarded by a gate configured with the different secret "secret"
followed by a zero byte, which gives the same HMAC key block. -/
theorem round_trip_counterexample :
    ((({ config := { JWTSecret := "secret", AuthUsername := "admin", AuthPassword := "changeme" } }
          : SecretService).authHandler jwt.decimalWire jwt.plainHashes 500000000
        (some { Username := "admin", Password := "changeme" })).Response
      = { StatusCode := 200, ContentType := "application/json",
          Body := .json (.obj [("token", .str (jwt.sampleToken
            { Username := "admin", ExpiresAt := some { Unix := 86400 } }))]) })
    ∧ (86400200000000 < 500000000 + 24 * time.Hour
      ∧ ({ config := { JWTSecret := "secret", AuthUsername := "admin",
                       AuthPassword := "changeme" } } : SecretService).jwtMiddleware
          jwt.decimalWire jwt.plainHashes 86400200000000
          { Authorization := "Bearer " ++ jwt.sampleToken
              { Username := "admin", ExpiresAt := some { Unix := 86400 } } }
        = { Written := some { StatusCode := 401, ContentType := "text/plain; charset=utf-8",
                              Body := .text "Invalid token\n" },
            Next := [] })
    ∧ (("secret\x00" : String) ≠ "secret"
      ∧ ({ config := { JWTSecret := "secret\x00", AuthUsername := "admin",
                       AuthPassword := "changeme" } } : SecretService).jwtMiddleware
          jwt.decimalWire jwt.plainHashes 500000000
          { Authorization := "Bearer " ++ jwt.sampleToken
              { Username := "admin", ExpiresAt := some { Unix := 86400 } } }
        = { Written := none,
            Next := [{ Authorization := "Bearer " ++ (jwt.sampleToken
              { Username := "admin", ExpiresAt := some { Unix := 86400 } }) }] }) := by
  have hT : jwt.SignedString jwt.decimalWire jwt.plainHashes .HS256
      { Username := "admin", ExpiresAt := some (jwt.NewNumericDate (500000000 + 24 * time.Hour)) }
      (bytes "secret")
        = .ok (jwt.sampleToken { Username := "admin", ExpiresAt := some { Unix := 86400 } }) :=
    sampleToken_signed _
  refine ⟨sample_issue, ⟨by decide, ?_⟩, ⟨by decide, ?_⟩⟩
  · rw [jwtMiddleware_issued jwt.decimalWire jwt.decimalWire_lawful jwt.plainHashes "admin"
      (bytes "secret") 500000000 _ _ 86400200000000 _ hT rfl rfl]
    rfl
  · rw [jwtMiddleware_issued jwt.decimalWire jwt.decimalWire_lawful jwt.plainHashes "admin"
      (bytes "secret") 500000000 _
      { config := { JWTSecret := "secret\x00", AuthUsername := "admin", AuthPassword := "changeme" } }
      500000000 _ hT rfl (hmacSum_trailing_zero _ _)]
    rfl

/-- C5, amended. For every configuration and every token string T returned by
a successful `authHandler` call at time t, a request carrying the header
"Bearer " followed by T under the same configuration is forwarded at any time
before the expiration of T (t plus 24 hours, truncated down to the whole
second) and answered 401 at or after it, so in particular at or after t plus
24 hours; T sent without the "Bearer " prefix is answered 401; and T checked
under a secret under which its signature does not verify is answered 401. -/
theorem round_trip (W : jwt.Wire) (hW : W.Lawful) (h : jwt.Hashes) (s : SecretService)
    (t : Time) (body : Option AuthRequest) (T : String)
    (hT : (s.authHandler W h t body).Response =
      { StatusCode := 200, ContentType := "application/json",
        Body := .json (.obj [("token", .str T)]) }) :
    (∀ (now : Time) (r : Request), r.Authorization = "Bearer " ++ T →
        now < (t + 24 * time.Hour) / time.Second * time.Second →
        s.jwtMiddleware W h now r = { Written := none, Next := [r] })
    ∧ (∀ (now : Time) (r : Request), r.Authorization = "Bearer " ++ T →
        (t + 24 * time.Hour) / time.Second * time.Second ≤ now →
        s.jwtMiddleware W h now r = unauthorized "Invalid token")
    ∧ (∀ (now : Time) (r : Request), r.Authorization = "Bearer " ++ T →
        t + 24 * time.Hour ≤ now →
        s.jwtMiddleware W h now r = unauthorized "Invalid token")
    ∧ (∀ (now : Time) (r : Request), r.Authorization = T →
        s.jwtMiddleware W h now r = unauthorized "Bearer token required")
    ∧ (∀ (s2 : SecretService) (now : Time) (r : Request), r.Authorization = "Bearer " ++ T →
        jwt.signatureVerifies W h T (bytes s2.config.JWTSecret) = false →
        s2.jwtMiddleware W h now r = unauthorized "Invalid token") := by
  have hS := authHandler_success W h s t body T hT
  have hgate : ∀ (now : Time) (r : Request), r.Authorization = "Bearer " ++ T →
      s.jwtMiddleware W h now r =
        if now < (jwt.NewNumericDate (t + 24 * time.Hour)).Time then
          { Written := none, Next := [r] }
        else unauthorized "Invalid token" := fun now r hr =>
    jwtMiddleware_issued W hW h _ _ t T s now r hS hr rfl
  refine ⟨?_, ?_, ?_, ?_, ?_⟩
  · intro now r hr hlt
    rw [hgate now r hr]
    exact if_pos hlt
  · intro now r hr hle
    rw [hgate now r hr]
    exact if_neg (Nat.not_lt.2 hle)
  · intro now r hr hle
    rw [hgate now r hr]
    exact if_neg (Nat.not_lt.2 (Nat.le_trans (NewNumericDate_le _) hle))
  · intro now r hr
    obtain ⟨_, hTs⟩ := jwt.SignedString_ok _ _ _ _ _ _ hS
    have hp : HasPrefix r.Authorization "Bearer " = false := by
      rw [hr, hTs]
      unfold jwt.SigningString
      rw [List.append_assoc]
      exact serialised_not_bearer _ _ (hW.header_blank _)
    have hne : r.Authorization ≠ "" := by
      rw [hr, hTs]
      intro e
      have := congrArg String.data e
      simp [jwt.SigningString] at this
    exact jwtMiddleware_no_bearer W h s now r hne hp
  · intro s2 now r hr hv
    rcases jwtMiddleware_forwards_iff_checks W h s2 now r T hr with ⟨_, hc⟩ | ⟨e, _⟩
    · rw [hc.1] at hv
      exact absurd hv (by decide)
    · exact e

theorem round_trip_witness :
    ({ config := { JWTSecret := "secret", AuthUsername := "admin", AuthPassword := "changeme" } }
        : SecretService).jwtMiddleware jwt.decimalWire jwt.plainHashes 86399999999999
      { Authorization := "Bearer " ++ jwt.sampleToken
          { Username := "admin", ExpiresAt := some { Unix := 86400 } } }
      = { Written := none,
          Next := [{ Authorization := "Bearer " ++ (jwt.sampleToken
            { Username := "admin", ExpiresAt := some { Unix := 86400 } }) }] } :=
  (round_trip jwt.decimalWire jwt.decimalWire_lawful jwt.plainHashes
    { config := { JWTSecret := "secret", AuthUsername := "admin", AuthPassword := "changeme" } }
    500000000 (some { Username := "admin", Password := "changeme" })
    (jwt.sampleToken { Username := "admin", ExpiresAt := some { Unix := 86400 } })
    sample_issue).1 86399999999999 _ rfl (by decide)

/-! ## The secret store accessor -/

/-- C6. `getSecretHandler` equals the closed lookup: 403 "Secret not allowed"
for every name other than "openai" and "firebase", whatever the
configuration; 500 "Secret not configured" for "openai" or "firebase" when the
configured value is empty; otherwise 200 with exactly the configured value and
no error. Matching is exact: "OpenAI" and the empty name are answered 403. -/
theorem getSecretHandler_closed_lookup (s : SecretService) (secretName : String) :
    s.getSecretHandler secretName = secretLookupSpec s.config secretName
    ∧ (secretName ≠ "openai" ∧ secretName ≠ "firebase" →
        s.getSecretHandler secretName =
          { StatusCode := 403, ContentType := "application/json",
            Body := .json (.obj [("secret", .str ""), ("error", .str "Secret not allowed")]) })
    ∧ (s.config.OpenAIKey = "" →
        s.getSecretHandler "openai" =
          { StatusCode := 500, ContentType := "application/json",
            Body := .json (.obj [("secret", .str ""), ("error", .str "Secret not configured")]) })
    ∧ (s.config.FirebaseKey = "" →
        s.getSecretHandler "firebase" =
          { StatusCode := 500, ContentType := "application/json",
            Body := .json (.obj [("secret", .str ""), ("error", .str "Secret not configured")]) })
    ∧ (s.config.OpenAIKey ≠ "" →
        s.getSecretHandler "openai" =
          { StatusCode := 200, ContentType := "application/json",
            Body := .json (.obj [("secret", .str s.config.OpenAIKey)]) })
    ∧ (s.config.FirebaseKey ≠ "" →
        s.getSecretHandler "firebase" =
          { StatusCode := 200, ContentType := "application/json",
            Body := .json (.obj [("secret", .str s.config.FirebaseKey)]) })
    ∧ s.getSecretHandler "OpenAI" =
          { StatusCode := 403, ContentType := "application/json",
            Body := .json (.obj [("secret", .str ""), ("error", .str "Secret not allowed")]) }
    ∧ s.getSecretHandler "" =
          { StatusCode := 403, ContentType := "application/json",
            Body := .json (.obj [("secret", .str ""), ("error", .str "Secret not allowed")]) } := by
  refine ⟨?_, ?_, ?_, ?_, ?_, ?_, rfl, rfl⟩
  · unfold SecretService.getSecretHandler secretLookupSpec
    by_cases h1 : secretName = "openai"
    · subst h1
      by_cases hk : s.config.OpenAIKey = ""
      · simp [hk, writeJSON, SecretResponse.toJSON, omitempty, http.StatusInternalServerError]
      · simp [hk, writeJSON, SecretResponse.toJSON, omitempty, http.StatusOK]
    · by_cases h2 : secretName = "firebase"
      · subst h2
        by_cases hk : s.config.FirebaseKey = ""
        · simp [hk, writeJSON, SecretResponse.toJSON, omitempty, http.StatusInternalServerError]
        · simp [hk, writeJSON, SecretResponse.toJSON, omitempty, http.StatusOK]
      · simp [h1, h2, writeJSON, SecretResponse.toJSON, omitempty, http.StatusForbidden]
  · rintro ⟨h1, h2⟩
    simp [SecretService.getSecretHandler, h1, h2, writeJSON, SecretResponse.toJSON, omitempty,
      http.StatusForbidden]
  · intro hk
    simp [SecretService.getSecretHandler, hk, writeJSON, SecretResponse.toJSON, omitempty,
      http.StatusInternalServerError]
  · intro hk
    simp [SecretService.getSecretHandler, hk, writeJSON, SecretResponse.toJSON, omitempty,
      http.StatusInternalServerError]
  · intro hk
    simp [SecretService.getSecretHandler, hk, writeJSON, SecretResponse.toJSON, omitempty,
      http.StatusOK]
  · intro hk
    simp [SecretService.getSecretHandler, hk, writeJSON, SecretResponse.toJSON, omitempty,
      http.StatusOK]

theorem getSecretHandler_closed_lookup_witness :
    ({ config := { OpenAIKey := "sk-test" } } : SecretService).getSecretHandler "openai" =
      { StatusCode := 200, ContentType := "application/json",
        Body := .json (.obj [("secret", .str "sk-test")]) } :=
  (getSecretHandler_closed_lookup { config := { OpenAIKey := "sk-test" } } "openai").2.2.2.2.1
    (by decide)

/-! ## The chat proxy -/

namespace internal

/-- With a key configured and a decoded body, `ChatHandler` makes exactly one
call and its answer is decided by what that call returns. -/
theorem ChatHandler_call (Do : Transport) (prompt : String) (s : ChatService)
    (req : ChatRequest) (hkey : s.Config.OpenAIKey ≠ "") :
    s.ChatHandler Do prompt (some req) =
      { Response :=
          match Do { Timeout := 30 * time.Second } (outboundRequest prompt s req) with
          | .error _ =>
            writeJSON http.StatusInternalServerError
              (ChatResponse.toJSON { Error := "Failed to contact OpenAI API" })
          | .ok openaiResp =>
            if openaiResp.StatusCode ≠ 200 then
              writeJSON http.StatusBadGateway (ChatResponse.toJSON { Error := "OpenAI API error" })
            else
              match decodeMap openaiResp.Body with
              | .error _ =>
                writeJSON http.StatusInternalServerError
                  (ChatResponse.toJSON { Error := "Failed to decode OpenAI response" })
              | .ok openaiResult =>
                if aiResponse openaiResult = "" then
                  writeJSON http.StatusInternalServerError
                    (ChatResponse.toJSON { Error := "No response from OpenAI" })
                else
                  writeJSON http.StatusOK
                    (ChatResponse.toJSON { Response := aiResponse openaiResult }),
        Outbound := [outboundRequest prompt s req] } := by
  simp only [ChatService.ChatHandler, if_neg hkey, Marshal, NewRequest]
  show _ = ChatResult.mk _ _
  cases hd : Do { Timeout := 30 * time.Second } (outboundRequest prompt s req) with
  | error e =>
    simp only [outboundRequest] at hd
    simp only [hd]
    rfl
  | ok resp =>
    simp only [outboundRequest] at hd
    simp only [hd]
    by_cases hst : resp.StatusCode ≠ 200
    · simp only [if_pos hst]
      rfl
    · simp only [if_neg hst]
      cases decodeMap resp.Body with
      | error e => rfl
      | ok m =>
        by_cases ha : aiResponse m = ""
        · simp only [if_pos ha]
          rfl
        · simp only [if_neg ha]
          rfl

/-- The single request of a call with a key configured and a decoded body. -/
theorem ChatHandler_outbound (Do : Transport) (prompt : String) (s : ChatService)
    (req : ChatRequest) (hkey : s.Config.OpenAIKey ≠ "") (r : OutboundRequest)
    (hout : (s.ChatHandler Do prompt (some req)).Outbound = [r]) :
    r = outboundRequest prompt s req := by
  rw [ChatHandler_call Do prompt s req hkey] at hout
  simpa using hout.symm

/-- C7. For every request, whatever the decoding of its body gives, and
whatever the network would answer, `ChatHandler` on a service whose key is
empty answers 500 with an error field and makes no outbound call. -/
theorem ChatHandler_key_missing (Do : Transport) (prompt : String) (s : ChatService)
    (body : Option ChatRequest) (hkey : s.Config.OpenAIKey = "") :
    s.ChatHandler Do prompt body =
      { Response :=
          { StatusCode := 500, ContentType := "application/json",
            Body := .json (.obj [("error", .str "OpenAI API key not configured")]) },
        Outbound := [] } := by
  simp only [ChatService.ChatHandler, if_pos hkey]
  rfl

theorem ChatHandler_key_missing_witness :
    (NewChatService "").ChatHandler
        (cannedTransport (.ok { StatusCode := 200, Body := none })) "" none =
      { Response :=
          { StatusCode := 500, ContentType := "application/json",
            Body := .json (.obj [("error", .str "OpenAI API key not configured")]) },
        Outbound := [] } :=
  ChatHandler_key_missing (cannedTransport (.ok { StatusCode := 200, Body := none })) ""
    (NewChatService "") none rfl

/-- C9. For every upstream reply whose status code is not 200 (201 and 204
included), `ChatHandler` answers 502 with the fixed non-empty error "OpenAI API
error" and no response field; the answer does not depend on the body of the
reply. -/
theorem ChatHandler_upstream_status (Do : Transport) (prompt : String) (s : ChatService)
    (req : ChatRequest) (r : OutboundRequest) (reply : UpstreamResponse)
    (hkey : s.Config.OpenAIKey ≠ "")
    (hout : (s.ChatHandler Do prompt (some req)).Outbound = [r])
    (hDo : Do { Timeout := 30 * time.Second } r = .ok reply)
    (hstatus : reply.StatusCode ≠ 200) :
    (s.ChatHandler Do prompt (some req)).Response =
        { StatusCode := 502, ContentType := "application/json",
          Body := .json (.obj [("error", .str "OpenAI API error")]) }
    ∧ mapIndex [("error", JSON.str "OpenAI API error")] "response" = none
    ∧ mapIndex [("error", JSON.str "OpenAI API error")] "error" = some (.str "OpenAI API error")
    ∧ ("OpenAI API error" : String) ≠ "" := by
  rw [ChatHandler_outbound Do prompt s req hkey r hout] at hDo
  refine ⟨?_, rfl, rfl, by decide⟩
  rw [ChatHandler_call Do prompt s req hkey]
  simp only [hDo, if_pos hstatus]
  rfl

theorem ChatHandler_upstream_status_witness :
    ((NewChatService "sk-test").ChatHandler
        (cannedTransport (.ok { StatusCode := 201, Body := some (.obj
          [("choices", .arr [.obj [("message", .obj [("content", .str "Hello")])]])]) }))
        "" (some { Message := "hi" })).Response =
      { StatusCode := 502, ContentType := "application/json",
        Body := .json (.obj [("error", .str "OpenAI API error")]) } :=
  (ChatHandler_upstream_status
    (cannedTransport (.ok { StatusCode := 201, Body := some (.obj
      [("choices", .arr [.obj [("message", .obj [("content", .str "Hello")])]])]) }))
    "" (NewChatService "sk-test") { Message := "hi" }
    (outboundRequest "" (NewChatService "sk-test") { Message := "hi" })
    { StatusCode := 201, Body := some (.obj
      [("choices", .arr [.obj [("message", .obj [("content", .str "Hello")])]])]) }
    (by decide) rfl rfl (by decide)).1

/-- C10 as stated fails: when the outbound call times out the handler answers
500, not 502. -/
theorem ChatHandler_timeout_counterexample :
    ((NewChatService "sk-test").ChatHandler (cannedTransport (.error .timeout)) ""
        (some { Message := "hi" })).Response.StatusCode = 500
    ∧ ((NewChatService "sk-test").ChatHandler (cannedTransport (.error .timeout)) ""
        (some { Message := "hi" })).Response.StatusCode ≠ http.StatusBadGateway := by
  constructor
  · rfl
  · show (500 : Nat) ≠ 502
    decide

/-- C10, amended. When the single outbound call, made with a 30 second
timeout, fails to complete (timeout or any other transport failure),
`ChatHandler` answers 500 Internal Server Error with the error "Failed to
contact OpenAI API", having made that one call and no other. -/
theorem ChatHandler_transport_failure (Do : Transport) (prompt : String) (s : ChatService)
    (req : ChatRequest) (r : OutboundRequest) (e : TransportError)
    (hkey : s.Config.OpenAIKey ≠ "")
    (hout : (s.ChatHandler Do prompt (some req)).Outbound = [r])
    (hDo : Do { Timeout := 30 * time.Second } r = .error e) :
    s.ChatHandler Do prompt (some req) =
      { Response :=
          { StatusCode := 500, ContentType := "application/json",
            Body := .json (.obj [("error", .str "Failed to contact OpenAI API")]) },
        Outbound := [r] } := by
  have hr := ChatHandler_outbound Do prompt s req hkey r hout
  rw [hr] at hDo
  rw [ChatHandler_call Do prompt s req hkey, hr]
  simp only [hDo]
  rfl

theorem ChatHandler_transport_failure_witness :
    (NewChatService "sk-test").ChatHandler (cannedTransport (.error .timeout)) ""
        (some { Message := "hi" }) =
      { Response :=
          { StatusCode := 500, ContentType := "application/json",
            Body := .json (.obj [("error", .str "Failed to contact OpenAI API")]) },
        Outbound := [outboundRequest "" (NewChatService "sk-test") { Message := "hi" }] } :=
  ChatHandler_transport_failure (cannedTransport (.error .timeout)) ""
    (NewChatService "sk-test") { Message := "hi" }
    (outboundRequest "" (NewChatService "sk-test") { Message := "hi" }) .timeout
    (by decide) rfl rfl

end internal

/-! ## Error responses -/

/-- A plain-text reply never has the JSON error envelope. -/
theorem http_Error_not_envelope (message : String) (code : Nat) :
    isErrorEnvelope (http.Error message code) = false := by
  rfl

/-- Every error answer of `authHandler` to a decoded body has the envelope. -/
theorem authHandler_error_envelope (W : jwt.Wire) (h : jwt.Hashes) (s : SecretService)
    (now : Time) (req : AuthRequest)
    (herr : (s.authHandler W h now (some req)).Response.StatusCode ≥ 400) :
    isErrorEnvelope (s.authHandler W h now (some req)).Response = true := by
  by_cases hor : req.Username ≠ s.config.AuthUsername ∨ req.Password ≠ s.config.AuthPassword
  · simp only [SecretService.authHandler, if_pos hor]
    rfl
  · push_neg at hor
    rw [authHandler_match W h s now req hor.1 hor.2] at herr ⊢
    cases hs : jwt.SignedString W h .HS256
        { Username := req.Username,
          ExpiresAt := some (jwt.NewNumericDate (now + 24 * time.Hour)) }
        (bytes s.config.JWTSecret) with
    | error e => rfl
    | ok tok =>
      rw [hs] at herr
      have h200 : (200 : Nat) ≥ 400 := herr
      exact absurd h200 (by decide)

/-- The three answers of `getSecretHandler`. -/
theorem getSecretHandler_cases (s : SecretService) (secretName : String) :
    s.getSecretHandler secretName =
        writeJSON http.StatusForbidden (SecretResponse.toJSON { Error := "Secret not allowed" })
    ∨ s.getSecretHandler secretName =
        writeJSON http.StatusInternalServerError
          (SecretResponse.toJSON { Error := "Secret not configured" })
    ∨ ∃ secret, s.getSecretHandler secretName =
        writeJSON http.StatusOK (SecretResponse.toJSON { Secret := secret }) := by
  unfold SecretService.getSecretHandler
  by_cases h1 : secretName = "openai"
  · simp only [if_pos h1]
    by_cases hk : s.config.OpenAIKey = ""
    · right; left
      simp [hk]
    · right; right
      exact ⟨s.config.OpenAIKey, by simp [hk]⟩
  · simp only [if_neg h1]
    by_cases h2 : secretName = "firebase"
    · simp only [if_pos h2]
      by_cases hk : s.config.FirebaseKey = ""
      · right; left
        simp [hk]
      · right; right
        exact ⟨s.config.FirebaseKey, by simp [hk]⟩
    · left
      simp only [if_neg h2]

/-- Every error answer of `getSecretHandler` has the envelope. -/
theorem getSecretHandler_error_envelope (s : SecretService) (secretName : String)
    (herr : (s.getSecretHandler secretName).StatusCode ≥ 400) :
    isErrorEnvelope (s.getSecretHandler secretName) = true := by
  rcases getSecretHandler_cases s secretName with e | e | ⟨secret, e⟩
  · rw [e]
    rfl
  · rw [e]
    rfl
  · rw [e] at herr
    have h200 : (200 : Nat) ≥ 400 := herr
    exact absurd h200 (by decide)

/-- Every error answer of `getOpenAIKeyHandler` has the envelope. -/
theorem getOpenAIKeyHandler_error_envelope (s : SecretService)
    (herr : s.getOpenAIKeyHandler.StatusCode ≥ 400) :
    isErrorEnvelope s.getOpenAIKeyHandler = true := by
  unfold SecretService.getOpenAIKeyHandler at herr ⊢
  by_cases hk : s.config.OpenAIKey = ""
  · simp only [if_pos hk]
    rfl
  · simp only [if_neg hk] at herr
    have h200 : (200 : Nat) ≥ 400 := herr
    exact absurd h200 (by decide)

/-- Every error answer of `ChatHandler` has the envelope. -/
theorem ChatHandler_error_envelope (Do : internal.Transport) (prompt : String)
    (s : internal.ChatService) (body : Option internal.ChatRequest)
    (herr : (s.ChatHandler Do prompt body).Response.StatusCode ≥ 400) :
    isErrorEnvelope (s.ChatHandler Do prompt body).Response = true := by
  by_cases hkey : s.Config.OpenAIKey = ""
  · simp only [internal.ChatService.ChatHandler, if_pos hkey]
    rfl
  · cases body with
    | none =>
      simp only [internal.ChatService.ChatHandler, if_neg hkey]
      rfl
    | some req =>
      rw [internal.ChatHandler_call Do prompt s req hkey] at herr ⊢
      cases hd : Do { Timeout := 30 * time.Second } (internal.outboundRequest prompt s req) with
      | error e => rfl
      | ok resp =>
        simp only [hd] at herr
        by_cases hst : resp.StatusCode ≠ 200
        · simp only [if_pos hst]
          rfl
        · simp only [if_neg hst] at herr ⊢
          cases hm : decodeMap resp.Body with
          | error e => rfl
          | ok m =>
            simp only [hm] at herr
            by_cases ha : internal.aiResponse m = ""
            · simp only [if_pos ha]
              rfl
            · simp only [if_neg ha] at herr
              have h200 : (200 : Nat) ≥ 400 := herr
              exact absurd h200 (by decide)

/-- Whatever the token gate writes is a plain-text 401. -/
theorem jwtMiddleware_written (W : jwt.Wire) (h : jwt.Hashes) (s : SecretService) (now : Time)
    (r : Request) (resp : Response) (hw : (s.jwtMiddleware W h now r).Written = some resp) :
    ∃ message, message ≠ "" ∧ resp = http.Error message http.StatusUnauthorized := by
  have hcases : s.jwtMiddleware W h now r = { Written := none, Next := [r] }
      ∨ s.jwtMiddleware W h now r = unauthorized "Authorization header required"
      ∨ s.jwtMiddleware W h now r = unauthorized "Bearer token required"
      ∨ s.jwtMiddleware W h now r = unauthorized "Invalid token" := by
    by_cases he : r.Authorization = ""
    · exact Or.inr (Or.inl (jwtMiddleware_missing W h s now r he))
    · cases hp : HasPrefix r.Authorization "Bearer " with
      | false => exact Or.inr (Or.inr (Or.inl (jwtMiddleware_no_bearer W h s now r he hp)))
      | true =>
        rw [jwtMiddleware_bearer W h s now r hp]
        cases jwt.ParseWithClaims W h now (String.mk (r.Authorization.data.drop 7))
            (bytes s.config.JWTSecret) with
        | error e => exact Or.inr (Or.inr (Or.inr rfl))
        | ok token =>
          cases hv : token.Valid with
          | false => exact Or.inr (Or.inr (Or.inr (by simp [hv])))
          | true => exact Or.inl (by simp [hv])
  rcases hcases with e | e | e | e
  · rw [e] at hw
    exact absurd hw (by simp)
  · rw [e] at hw
    injection hw with hw
    exact ⟨_, by decide, hw.symm⟩
  · rw [e] at hw
    injection hw with hw
    exact ⟨_, by decide, hw.symm⟩
  · rw [e] at hw
    injection hw with hw
    exact ⟨_, by decide, hw.symm⟩

/-- C11 as stated fails: the token gate answers a request without an
Authorization header with a 401 whose content type is text/plain and whose
body is not a JSON object. -/
theorem error_envelope_counterexample :
    (testService.jwtMiddleware jwt.decimalWire jwt.plainHashes 0 { }).Written =
        some { StatusCode := 401, ContentType := "text/plain; charset=utf-8",
               Body := .text "Authorization header required\n" }
    ∧ (401 : Nat) ≥ 400
    ∧ isErrorEnvelope { StatusCode := 401, ContentType := "text/plain; charset=utf-8",
                        Body := .text "Authorization header required\n" } = false := by
  refine ⟨rfl, by decide, rfl⟩

/-- C11, amended. Every error response (status at least 400) of `authHandler`
to a decodable body, of `getOpenAIKeyHandler`, of `getSecretHandler` and of
`ChatHandler` has content type application/json and a JSON object body with a
non-empty error message. Every response the token gate writes is a 401 with
content type text/plain whose body is a non-empty message followed by a line
feed: it does not have the JSON envelope. -/
theorem error_envelope (W : jwt.Wire) (h : jwt.Hashes) (s : SecretService) (now : Time)
    (Do : internal.Transport) (prompt : String) (chat : internal.ChatService) :
    (∀ req, (s.authHandler W h now (some req)).Response.StatusCode ≥ 400 →
        isErrorEnvelope (s.authHandler W h now (some req)).Response = true)
    ∧ (s.getOpenAIKeyHandler.StatusCode ≥ 400 → isErrorEnvelope s.getOpenAIKeyHandler = true)
    ∧ (∀ secretName, (s.getSecretHandler secretName).StatusCode ≥ 400 →
        isErrorEnvelope (s.getSecretHandler secretName) = true)
    ∧ (∀ body, (chat.ChatHandler Do prompt body).Response.StatusCode ≥ 400 →
        isErrorEnvelope (chat.ChatHandler Do prompt body).Response = true)
    ∧ (∀ r resp, (s.jwtMiddleware W h now r).Written = some resp →
        isErrorEnvelope resp = false ∧
        ∃ message, message ≠ "" ∧
          resp = { StatusCode := 401, ContentType := "text/plain; charset=utf-8",
                   Body := .text (message ++ "\n") }) := by
  refine ⟨fun req => authHandler_error_envelope W h s now req,
    getOpenAIKeyHandler_error_envelope s,
    fun name => getSecretHandler_error_envelope s name,
    fun body => ChatHandler_error_envelope Do prompt chat body, ?_⟩
  intro r resp hw
  obtain ⟨message, hne, rfl⟩ := jwtMiddleware_written W h s now r resp hw
  exact ⟨http_Error_not_envelope _ _, message, hne, rfl⟩

theorem error_envelope_witness :
    isErrorEnvelope (testService.authHandler jwt.decimalWire jwt.plainHashes 0
      (some { Username := "wronguser", Password := "wrongpass" })).Response = true :=
  (error_envelope jwt.decimalWire jwt.plainHashes testService 0
    (internal.cannedTransport (.error .timeout)) "" (internal.NewChatService "")).1
    { Username := "wronguser", Password := "wrongpass" } (by decide)

/-! ## Credentials and the environment -/

/-- C12. The code at the input of `TestAuthHandler`: a service whose
configuration carries only the signing secret answers the body
testuser/testpass with 401 "Invalid credentials" and no token, at every
instant. The handler compares with the configured pair, which is empty here,
and takes nothing from the environment; the configuration `main` would build
from the environment of the test does not hold the test pair either. -/
theorem TestAuthHandler_answer (W : jwt.Wire) (h : jwt.Hashes) (now : Time) :
    testService.authHandler W h now (some { Username := "testuser", Password := "testpass" }) =
      { Response :=
          { StatusCode := 401, ContentType := "application/json",
            Body := .json (.obj [("token", .str ""), ("error", .str "Invalid credentials")]) },
        Signed := [] }
    ∧ testEnviron "AUTH_USERNAME" = "testuser"
    ∧ testEnviron "AUTH_PASSWORD" = "testpass"
    ∧ testService.config.AuthUsername = ""
    ∧ testService.config.AuthPassword = ""
    ∧ (mainConfig testEnviron).AuthUsername = "admin"
    ∧ (mainConfig testEnviron).AuthPassword = "changeme" := by
  refine ⟨?_, rfl, rfl, rfl, rfl, by decide, by decide⟩
  have hor : ("testuser" : String) ≠ testService.config.AuthUsername
      ∨ ("testpass" : String) ≠ testService.config.AuthPassword := Or.inl (by decide)
  simp only [SecretService.authHandler, if_pos hor]
  rfl

/-- A signed string is never empty. -/
theorem SignedString_ne_empty (W : jwt.Wire) (h : jwt.Hashes) (m : jwt.SigningMethodHMAC)
    (c : Claims) (key : List UInt8) (t : String) (ht : jwt.SignedString W h m c key = .ok t) :
    t ≠ "" := by
  obtain ⟨_, rfl⟩ := jwt.SignedString_ok W h m c key t ht
  intro e
  have hd := congrArg String.data e
  simp [jwt.SigningString] at hd

/-- The defaults of `getEnv` keep a value with a non-empty default non-empty. -/
theorem getEnv_ne_empty (environ : String → String) (key defaultValue : String)
    (hd : defaultValue ≠ "") : getEnv environ key defaultValue ≠ "" := by
  unfold getEnv
  by_cases he : environ key ≠ ""
  · rw [if_pos he]
    exact he
  · rw [if_neg he]
    exact hd

/-- C13 as stated fails: a service whose configured user name and password
are empty answers the body with an empty user name and an empty password with
200 and a non-empty token. -/
theorem empty_credentials_counterexample :
    (({ config := { JWTSecret := "secret" } } : SecretService).authHandler
        jwt.decimalWire jwt.plainHashes 0 (some { Username := "", Password := "" })).Response
      = { StatusCode := 200, ContentType := "application/json",
          Body := .json (.obj [("token", .str (jwt.sampleToken
            { Username := "", ExpiresAt := some { Unix := 86400 } }))]) }
    ∧ jwt.sampleToken { Username := "", ExpiresAt := some { Unix := 86400 } } ≠ "" := by
  constructor
  · rw [authHandler_match _ _ _ _ _ rfl rfl]
    rfl
  · exact SignedString_ne_empty _ _ _ _ _ _ (sampleToken_signed _)

/-- C13, amended. For every configuration whose user name and password are
both non-empty, a decoded body in which the user name or the password is
empty or missing is answered 401 "Invalid credentials" and hands nothing to
the signer. Every configuration `main` builds through `getEnv` has a non-empty
user name and a non-empty password. -/
theorem authHandler_empty_field (W : jwt.Wire) (h : jwt.Hashes) (s : SecretService)
    (now : Time) (req : AuthRequest)
    (hcfg : s.config.AuthUsername ≠ "" ∧ s.config.AuthPassword ≠ "")
    (hreq : req.Username = "" ∨ req.Password = "") :
    s.authHandler W h now (some req) =
      { Response :=
          { StatusCode := 401, ContentType := "application/json",
            Body := .json (.obj [("token", .str ""), ("error", .str "Invalid credentials")]) },
        Signed := [] }
    ∧ ∀ environ : String → String,
        (mainConfig environ).AuthUsername ≠ "" ∧ (mainConfig environ).AuthPassword ≠ "" := by
  constructor
  · have hor : req.Username ≠ s.config.AuthUsername ∨ req.Password ≠ s.config.AuthPassword := by
      rcases hreq with hu | hp
      · left
        rw [hu]
        exact fun e => hcfg.1 e.symm
      · right
        rw [hp]
        exact fun e => hcfg.2 e.symm
    simp only [SecretService.authHandler, if_pos hor]
    rfl
  · intro environ
    exact ⟨getEnv_ne_empty environ _ _ (by decide), getEnv_ne_empty environ _ _ (by decide)⟩

theorem authHandler_empty_field_witness :
    ({ config := mainConfig testEnviron } : SecretService).authHandler
        jwt.decimalWire jwt.plainHashes 0 (some { Username := "admin", Password := "" }) =
      { Response :=
          { StatusCode := 401, ContentType := "application/json",
            Body := .json (.obj [("token", .str ""), ("error", .str "Invalid credentials")]) },
        Signed := [] } :=
  (authHandler_empty_field jwt.decimalWire jwt.plainHashes { config := mainConfig testEnviron } 0
    { Username := "admin", Password := "" } ⟨by decide, by decide⟩ (Or.inr rfl)).1

/-! ## The shortcut route -/

/-- C14. `getOpenAIKeyHandler` writes what `getSecretHandler` writes for the
name "openai": the same status code, content type and body for every
configuration, namely 500 "Secret not configured" when the key is empty and
200 with the key otherwise. -/
theorem getOpenAIKeyHandler_eq_getSecretHandler (s : SecretService) :
    s.getOpenAIKeyHandler = s.getSecretHandler "openai"
    ∧ s.getOpenAIKeyHandler.StatusCode = (s.getSecretHandler "openai").StatusCode
    ∧ s.getOpenAIKeyHandler.ContentType = (s.getSecretHandler "openai").ContentType
    ∧ s.getOpenAIKeyHandler.Body = (s.getSecretHandler "openai").Body
    ∧ (s.config.OpenAIKey = "" →
        s.getOpenAIKeyHandler =
          { StatusCode := 500, ContentType := "application/json",
            Body := .json (.obj [("secret", .str ""), ("error", .str "Secret not configured")]) })
    ∧ (s.config.OpenAIKey ≠ "" →
        s.getOpenAIKeyHandler =
          { StatusCode := 200, ContentType := "application/json",
            Body := .json (.obj [("secret", .str s.config.OpenAIKey)]) }) := by
  have heq : s.getOpenAIKeyHandler = s.getSecretHandler "openai" := by
    unfold SecretService.getOpenAIKeyHandler SecretService.getSecretHandler
    by_cases hk : s.config.OpenAIKey = ""
    · simp [hk]
    · simp [hk]
  refine ⟨heq, by rw [heq], by rw [heq], by rw [heq], ?_, ?_⟩
  · intro hk
    unfold SecretService.getOpenAIKeyHandler
    rw [if_pos hk]
    rfl
  · intro hk
    unfold SecretService.getOpenAIKeyHandler
    rw [if_neg hk]
    simp [writeJSON, SecretResponse.toJSON, omitempty, http.StatusOK]

theorem getOpenAIKeyHandler_eq_getSecretHandler_witness :
    ({ config := { OpenAIKey := "sk-test" } } : SecretService).getOpenAIKeyHandler =
      { StatusCode := 200, ContentType := "application/json",
        Body := .json (.obj [("secret", .str "sk-test")]) } :=
  (getOpenAIKeyHandler_eq_getSecretHandler { config := { OpenAIKey := "sk-test" } }).2.2.2.2.2
    (by decide)

end Blog
